import Mathlib

/-!
Portfolio front-end: form validation, form bookkeeping and navigation

A shallow embedding of `src/HTML Practise Assets/index.js`.

* A JavaScript string is its sequence of UTF-16 code units (`JSString`), so that
  `.length`, `.trim()` and the regular expression of `validateEmail` see exactly
  what the program sees.
* A JavaScript object used as a record is the list of its own enumerable
  properties in `Object.keys` order (`JSObject`).
* A call that throws is `Except.error`; the mutable singletons are threaded
  explicitly through the facade functions.
-/

namespace Portfolio

/-! ## Strings -/

/-- A JavaScript string: the list of its UTF-16 code units. -/
abbrev JSString := List Nat

/-- UTF-16 code units of one Unicode scalar value. -/
def utf16Units (c : Char) : List Nat :=
  if c.toNat < 0x10000 then [c.toNat]
  else [0xD800 + (c.toNat - 0x10000) / 0x400, 0xDC00 + (c.toNat - 0x10000) % 0x400]

/-- UTF-16 encoding of a list of characters. -/
def encode : List Char → JSString
  | [] => []
  | c :: cs => utf16Units c ++ encode cs

/-- The JavaScript string denoted by a string literal of the source. -/
def js (s : String) : JSString := encode s.toList

/-- ECMAScript `WhiteSpace` and `LineTerminator` code points: what `trim` strips. -/
def isTrimmable (u : Nat) : Bool :=
  u == 0x09 || u == 0x0A || u == 0x0B || u == 0x0C || u == 0x0D || u == 0x20 ||
  u == 0xA0 || u == 0x1680 || (0x2000 ≤ u && u ≤ 0x200A) || u == 0x2028 ||
  u == 0x2029 || u == 0x202F || u == 0x205F || u == 0x3000 || u == 0xFEFF

/-- The method `String.prototype.trim`. -/
def trim (s : JSString) : JSString :=
  ((s.dropWhile isTrimmable).reverse.dropWhile isTrimmable).reverse

/-! ## The regular expression of `validateEmail`

The pattern is a sequence of quantified character classes between `^` and `$`
(no flags).  `RegExp.prototype.test` is modelled by the backtracking search a
regular-expression engine performs: each quantifier is greedy and gives back
one code unit at a time. -/

/-- A character class with a quantifier `{min,max}`; `max = none` is unbounded. -/
structure Item where
  cls : Nat → Bool
  min : Nat
  max : Option Nat

/-- Number of leading code units of `s` in the class, at most `cap`. -/
def greedy (cls : Nat → Bool) : Option Nat → JSString → Nat
  | some 0, _ => 0
  | _, [] => 0
  | none, u :: s => if cls u then greedy cls none s + 1 else 0
  | some (k + 1), u :: s => if cls u then greedy cls (some k) s + 1 else 0

/-- Backtracking over the repetition counts `lo ≤ n ≤ lo + extra`, largest first. -/
def backtrack (cont : JSString → Bool) (s : JSString) (lo : Nat) : Nat → Bool
  | 0 => cont (s.drop lo)
  | extra + 1 => cont (s.drop (lo + extra + 1)) || backtrack cont s lo extra

/-- Match of a sequence of items against the whole of `s` (anchors `^` ... `$`). -/
def matchItems : List Item → JSString → Bool
  | [], s => s.isEmpty
  | it :: rest, s =>
    let hi := greedy it.cls it.max s
    if hi < it.min then false
    else backtrack (matchItems rest) s it.min (hi - it.min)

/-- A code unit in `a-zA-Z`. -/
def isAlpha (u : Nat) : Bool := (97 ≤ u && u ≤ 122) || (65 ≤ u && u ≤ 90)

/-- A code unit in `0-9`. -/
def isDigit (u : Nat) : Bool := 48 ≤ u && u ≤ 57

/-- The class `[a-zA-Z0-9._-]`. -/
def localClass (u : Nat) : Bool := isAlpha u || isDigit u || u == 46 || u == 95 || u == 45

/-- The class `[a-zA-Z0-9.-]`. -/
def domainClass (u : Nat) : Bool := isAlpha u || isDigit u || u == 46 || u == 45

/-- The literal `/^[a-zA-Z0-9._-]+@[a-zA-Z0-9.-]+\.[a-zA-Z]{2,6}$/`. -/
def pattern : List Item :=
  [ ⟨localClass, 1, none⟩,
    ⟨fun u => u == 64, 1, some 1⟩,
    ⟨domainClass, 1, none⟩,
    ⟨fun u => u == 46, 1, some 1⟩,
    ⟨isAlpha, 2, some 6⟩ ]

/-- The call `pattern.test(value)`. -/
def patternTest (value : JSString) : Bool := matchItems pattern value

/-! ## Field validators (`formValidators`) -/

def validateName (value : JSString) : JSString :=
  if trim value = [] then js "Please enter your name"
  else if (trim value).length < 2 then js "Name must be at least 2 characters"
  else js ""

def validateEmail (value : JSString) : JSString :=
  if trim value = [] then js "Email is required"
  else if !patternTest value then js "Please enter a valid email address"
  else js ""

def validatePhone (value : JSString) : JSString :=
  if trim value ≠ [] ∧ (trim value).length < 10 then js "Please enter a valid phone number"
  else js ""

def validateMessage (value : JSString) : JSString :=
  if trim value = [] then js "Message cannot be empty"
  else if (trim value).length < 20 then js "Message should be at least 20 characters"
  else js ""

/-! ## Objects and values -/

/-- An object used as a record: its own enumerable properties, in `Object.keys` order. -/
abbrev JSObject (α : Type) := List (JSString × α)

namespace JSObject

variable {α : Type}

/-- The own property names, `Object.keys(o)`. -/
def keys (o : JSObject α) : List JSString := o.map Prod.fst

/-- Own property lookup; `none` when `o` has no own property `k`. -/
def get? : JSObject α → JSString → Option α
  | [], _ => none
  | (k', v) :: o, k => if k' = k then some v else get? o k

/-- The call `o.hasOwnProperty(k)`. -/
def hasOwnProperty (o : JSObject α) (k : JSString) : Bool := (o.get? k).isSome

/-- Overwrite the value of the own property `k`. -/
def replace : JSObject α → JSString → α → JSObject α
  | [], _, _ => []
  | (k', v') :: o, k, v => if k' = k then (k, v) :: o else (k', v') :: replace o k v

/-- The assignment `o[k] = v` on an object whose prototype is `Object.prototype`:
an own property is overwritten, a new one is appended, and the name `__proto__`
reaches the inherited setter, which creates no own property. -/
def put (o : JSObject α) (k : JSString) (v : α) : JSObject α :=
  if o.hasOwnProperty k then o.replace k v
  else if k = js "__proto__" then o
  else o ++ [(k, v)]

/-- The statement `delete o[k]`. -/
def delete (o : JSObject α) (k : JSString) : JSObject α := o.filter (fun e => e.1 ≠ k)

end JSObject

/-- The values the program handles besides plain records. -/
inductive JSVal
  /-- A primitive string. -/
  | str (s : JSString)
  /-- A primitive boolean. -/
  | bool (b : Bool)
  /-- A `String` wrapper object, as made by `Object(s)`. -/
  | stringObject (s : JSString)
  deriving DecidableEq, Repr

/-- ToBoolean: what `if (v)` and `!v` test. -/
def JSVal.truthy : JSVal → Bool
  | .str s => !s.isEmpty
  | .bool b => b
  | .stringObject _ => true

/-- A thrown exception. -/
inductive JSError
  | typeError
  deriving DecidableEq, Repr

deriving instance DecidableEq for Except

/-- Names of the properties every object literal inherits from `Object.prototype`
(ECMAScript 20.1.3 and Annex B.2.2). -/
def objectPrototypeKeys : List JSString :=
  [js "constructor", js "__defineGetter__", js "__defineSetter__", js "hasOwnProperty",
   js "__lookupGetter__", js "__lookupSetter__", js "isPrototypeOf",
   js "propertyIsEnumerable", js "toString", js "valueOf", js "__proto__",
   js "toLocaleString"]

/-- Outcome of `f(value)` where `f` is the member of `Object.prototype` named `key`,
called as a plain function (no receiver) on a string.  `toString` answers for an
undefined receiver, `constructor` is `Object` and wraps the string,
`isPrototypeOf` rejects a non-object argument before looking at its receiver,
`__proto__` reads as the prototype object, which is not callable, and the others
convert their undefined receiver to an object, which throws. -/
def objectPrototypeCall (key value : JSString) : Option (Except JSError JSVal) :=
  if key = js "toString" then some (.ok (.str (js "[object Undefined]")))
  else if key = js "constructor" then some (.ok (.stringObject value))
  else if key = js "isPrototypeOf" then some (.ok (.bool false))
  else if key ∈ objectPrototypeKeys then some (.error .typeError)
  else none

/-! ## `PortfolioManager` -/

/-- The result record of `validateForm`. -/
structure Validation where
  isValid : Bool
  errors : JSObject JSVal
  deriving DecidableEq

/-- The result record of `submitForm` and `submitContactForm`. -/
inductive SubmitResult
  /-- The record with `success: true` and a message. -/
  | success (message : JSString)
  /-- The record with `success: false` and the errors. -/
  | failure (errors : JSObject JSVal)
  deriving DecidableEq

/-- The mutable part of a `PortfolioManager`: the last submitted form data
(`this.data` is never written and no operation below reads it). -/
structure PortfolioManager where
  formData : JSObject JSString
  deriving DecidableEq

namespace PortfolioManager

/-- The state set up by the constructor. -/
def new : PortfolioManager :=
  ⟨[(js "name", js ""), (js "email", js ""), (js "phone", js ""), (js "message", js "")]⟩

/-- The object literal `validatorMap`. -/
def validatorMap : JSObject (JSString → JSString) :=
  [(js "name", validateName), (js "email", validateEmail),
   (js "phone", validatePhone), (js "message", validateMessage)]

/-- The method `validateField`: `validatorMap[fieldName]` is an own property, or
else an inherited one, or else undefined. -/
def validateField (fieldName value : JSString) : Except JSError JSVal :=
  match validatorMap.get? fieldName with
  | some validator => .ok (.str (validator value))
  | none =>
    match objectPrototypeCall fieldName value with
    | some outcome => outcome
    | none => .ok (.str (js ""))

/-- The `forEach` of `validateForm` over the remaining properties. -/
def validateFormLoop : JSObject JSString → Validation → Except JSError Validation
  | [], acc => .ok acc
  | (field, value) :: rest, acc =>
    match validateField field value with
    | .error e => .error e
    | .ok error =>
      if error.truthy then validateFormLoop rest ⟨false, acc.errors.put field error⟩
      else validateFormLoop rest acc

/-- The method `validateForm`. -/
def validateForm (formInputs : JSObject JSString) : Except JSError Validation :=
  validateFormLoop formInputs ⟨true, []⟩

/-- The confirmation returned by a successful submission. -/
def confirmation : JSString := js "✨ Message sent! I'll get back to you within 24 hours."

/-- The method `submitForm`: its outcome and the manager afterwards. -/
def submitForm (pm : PortfolioManager) (formInputs : JSObject JSString) :
    Except JSError SubmitResult × PortfolioManager :=
  match validateForm formInputs with
  | .error e => (.error e, pm)
  | .ok validation =>
    if validation.isValid then (.ok (.success confirmation), { pm with formData := formInputs })
    else (.ok (.failure validation.errors), pm)

end PortfolioManager

/-! ## `NavigationManager` -/

/-- The result record of `navigateToSection`. -/
inductive NavResult
  /-- The record with `success: true` and the section. -/
  | success (section_ : JSString)
  /-- The record with `success: false` and a message. -/
  | failure (message : JSString)
  deriving DecidableEq

structure NavigationManager where
  sections : List JSString
  currentSection : JSString
  deriving DecidableEq

namespace NavigationManager

/-- The state set up by the constructor. -/
def new : NavigationManager := ⟨[js "about", js "work", js "contact"], js "about"⟩

def navigateToSection (nav : NavigationManager) (sectionId : JSString) :
    NavResult × NavigationManager :=
  if sectionId ∈ nav.sections then (.success sectionId, { nav with currentSection := sectionId })
  else (.failure (js "Section not found"), nav)

def getCurrentSection (nav : NavigationManager) : JSString := nav.currentSection

def getAllSections (nav : NavigationManager) : List JSString := nav.sections

end NavigationManager

/-! ## `ContactFormHandler` -/

structure ContactFormHandler where
  fields : JSObject JSString
  errors : JSObject JSVal
  isSubmitting : Bool
  deriving DecidableEq

namespace ContactFormHandler

/-- The object literal both the constructor and `resetForm` assign to `fields`. -/
def emptyFields : JSObject JSString :=
  [(js "name", js ""), (js "email", js ""), (js "phone", js ""), (js "message", js "")]

/-- The state set up by the constructor. -/
def new : ContactFormHandler := ⟨emptyFields, [], false⟩

def updateField (h : ContactFormHandler) (fieldName value : JSString) :
    Bool × ContactFormHandler :=
  if h.fields.hasOwnProperty fieldName then
    (true, { h with fields := h.fields.put fieldName value })
  else (false, h)

def setError (h : ContactFormHandler) (fieldName : JSString) (errorMessage : JSVal) :
    ContactFormHandler :=
  { h with errors := h.errors.put fieldName errorMessage }

def clearError (h : ContactFormHandler) (fieldName : JSString) : ContactFormHandler :=
  { h with errors := h.errors.delete fieldName }

def clearAllErrors (h : ContactFormHandler) : ContactFormHandler := { h with errors := [] }

def hasErrors (h : ContactFormHandler) : Bool := 0 < h.errors.keys.length

def getErrors (h : ContactFormHandler) : JSObject JSVal := h.errors

def resetForm (h : ContactFormHandler) : ContactFormHandler :=
  clearAllErrors { h with fields := emptyFields }

def getFormData (h : ContactFormHandler) : JSObject JSString := h.fields

end ContactFormHandler

/-! ## The facade -/

/-- The three singletons `portfolio`, `navigation` and `contactForm`. -/
structure System where
  portfolio : PortfolioManager
  navigation : NavigationManager
  contactForm : ContactFormHandler
  deriving DecidableEq

/-- The singletons as the script creates them. -/
def System.initial : System := ⟨PortfolioManager.new, NavigationManager.new, ContactFormHandler.new⟩

def navigateTo (s : System) (sectionId : JSString) : NavResult × System :=
  let r := s.navigation.navigateToSection sectionId
  (r.1, { s with navigation := r.2 })

/-- The function `updateFormField`: its outcome and the singletons afterwards. -/
def updateFormField (s : System) (fieldName value : JSString) : Except JSError Bool × System :=
  let contactForm := (s.contactForm.updateField fieldName value).2
  match PortfolioManager.validateField fieldName value with
  | .error e => (.error e, { s with contactForm := contactForm })
  | .ok error =>
    if error.truthy then
      (.ok (!error.truthy), { s with contactForm := contactForm.setError fieldName error })
    else (.ok (!error.truthy), { s with contactForm := contactForm.clearError fieldName })

/-- The `forEach` of `submitContactForm` over the properties of `result.errors`. -/
def setErrors : JSObject JSVal → ContactFormHandler → ContactFormHandler
  | [], h => h
  | (field, error) :: rest, h => setErrors rest (h.setError field error)

/-- The function `submitContactForm`: its outcome and the singletons afterwards. -/
def submitContactForm (s : System) : Except JSError SubmitResult × System :=
  let formData := s.contactForm.getFormData
  match s.portfolio.submitForm formData with
  | (.error e, portfolio) => (.error e, { s with portfolio := portfolio })
  | (.ok (.success message), portfolio) =>
    (.ok (.success message), { s with portfolio := portfolio, contactForm := s.contactForm.resetForm })
  | (.ok (.failure errors), portfolio) =>
    (.ok (.failure errors),
      { s with portfolio := portfolio, contactForm := setErrors errors s.contactForm })

/-! ## Runs of calls and the wording of the specification -/

/-- The navigation state after a run of `navigateToSection` calls. -/
def navigateAll (nav : NavigationManager) : List JSString → NavigationManager
  | [] => nav
  | sectionId :: rest => navigateAll (nav.navigateToSection sectionId).2 rest

/-- An ASCII letter, in the words of the specification. -/
def specLetter (u : Nat) : Prop :=
  ('a'.toNat ≤ u ∧ u ≤ 'z'.toNat) ∨ ('A'.toNat ≤ u ∧ u ≤ 'Z'.toNat)

/-- An ASCII digit, in the words of the specification. -/
def specDigit (u : Nat) : Prop := '0'.toNat ≤ u ∧ u ≤ '9'.toNat

/-- The form `local@domain.tld` in the words of the specification: `local` is a
non-empty string over ASCII letters, digits and `.` `_` `-`, `domain` a non-empty
string over ASCII letters, digits and `.` `-`, and `tld` is 2 to 6 ASCII letters. -/
def SpecEmailForm (value : JSString) : Prop :=
  ∃ loc domain tld : JSString,
    value = loc ++ js "@" ++ domain ++ js "." ++ tld ∧
    loc ≠ [] ∧
    (∀ u ∈ loc, specLetter u ∨ specDigit u ∨ u = '.'.toNat ∨ u = '_'.toNat ∨ u = '-'.toNat) ∧
    domain ≠ [] ∧
    (∀ u ∈ domain, specLetter u ∨ specDigit u ∨ u = '.'.toNat ∨ u = '-'.toNat) ∧
    2 ≤ tld.length ∧ tld.length ≤ 6 ∧ (∀ u ∈ tld, specLetter u)

/-- The field values entered by the demonstration at the end of the script. -/
def demoFields : JSObject JSString :=
  [(js "name", js "Breana Fulton"), (js "email", js "breana@example.com"), (js "phone", js ""),
   (js "message",
    js "This is a test message that is long enough to pass validation requirements.")]

/-- The singletons once the demonstration has entered its field values. -/
def System.demo : System :=
  ⟨PortfolioManager.new, NavigationManager.new, ⟨demoFields, [], false⟩⟩

/-- A repetition count allowed by the upper bound of a quantifier. -/
def withinCap : Option Nat → Nat → Prop
  | none, _ => True
  | some m, n => n ≤ m

/-- The four field names of the contact form. -/
def fieldNames : List JSString := [js "name", js "email", js "phone", js "message"]

/-- The properties `validateForm` records: the fields whose validation result is
truthy, each with that result. -/
def invalidEntries : JSObject JSString → JSObject JSVal
  | [] => []
  | (field, value) :: rest =>
    match PortfolioManager.validateField field value with
    | .ok error => if error.truthy then (field, error) :: invalidEntries rest else invalidEntries rest
    | .error _ => invalidEntries rest

/-- What `getFieldValue` can return: a string, or the member of `Object.prototype`
that the read `this.fields[fieldName]` finds under an inherited name. -/
inductive FieldRead
  /-- A primitive string. -/
  | str (s : JSString)
  /-- The member of `Object.prototype` named `key`. -/
  | inherited (key : JSString)
  deriving DecidableEq

/-- The method `getFieldValue`, `this.fields[fieldName] || ''`: an own non-empty
string is returned, an inherited member is truthy and returned, and the empty
string and undefined give `''`. -/
def ContactFormHandler.getFieldValue (h : ContactFormHandler) (fieldName : JSString) :
    FieldRead :=
  match h.fields.get? fieldName with
  | some value => if value.isEmpty then .str (js "") else .str value
  | none => if fieldName ∈ objectPrototypeKeys then .inherited fieldName else .str (js "")

/-- A call of one of the two form functions of the facade. -/
inductive FacadeCall
  /-- The call `updateFormField(fieldName, value)`. -/
  | updateFormField (fieldName value : JSString)
  /-- The call `submitContactForm()`. -/
  | submitContactForm

/-- The singletons after one call of the facade, whether it returns or throws. -/
def FacadeCall.run (s : System) : FacadeCall → System
  | .updateFormField fieldName value => (Portfolio.updateFormField s fieldName value).2
  | .submitContactForm => (Portfolio.submitContactForm s).2

/-- The singletons after a run of facade calls. -/
def runCalls (s : System) : List FacadeCall → System
  | [] => s
  | call :: rest => runCalls (call.run s) rest

/-- What holds of the form in every state the facade reaches: the fields are the
four slots; an error stored under a field is the truthy validation result of the
value now stored; and a field without error holds a valid value or the empty string. -/
def FormInvariant (s : System) : Prop :=
  s.contactForm.fields.keys = fieldNames ∧
  (∀ f ∈ fieldNames, ∀ x m, s.contactForm.fields.get? f = some x →
    s.contactForm.errors.get? f = some m →
    PortfolioManager.validateField f x = .ok m ∧ m.truthy = true) ∧
  (∀ f ∈ fieldNames, ∀ x, s.contactForm.fields.get? f = some x →
    s.contactForm.errors.get? f = none →
    x = js "" ∨ PortfolioManager.validateField f x = .ok (.str (js "")))

/-! ## Lemmas on the regular expression -/

theorem le_greedy_iff (cls : Nat → Bool) (s : JSString) :
    ∀ (cap : Option Nat) (n : Nat),
      n ≤ greedy cls cap s ↔ n ≤ s.length ∧ (∀ u ∈ s.take n, cls u = true) ∧ withinCap cap n := by
  induction s with
  | nil =>
    intro cap n
    have hg : greedy cls cap [] = 0 := by
      cases cap with
      | none => rfl
      | some m => cases m <;> rfl
    rw [hg]
    constructor
    · intro h
      have : n = 0 := by omega
      subst this
      cases cap <;> simp [withinCap]
    · intro h
      exact h.1
  | cons u s ih =>
    intro cap n
    cases n with
    | zero => cases cap <;> simp [withinCap]
    | succ k =>
      cases cap with
      | none =>
        simp only [greedy]
        by_cases hu : cls u = true
        · simp [hu, ih none k, withinCap]
        · simp [hu, withinCap]
      | some m =>
        cases m with
        | zero => simp [greedy, withinCap]
        | succ m =>
          simp only [greedy]
          by_cases hu : cls u = true
          · simp [hu, ih (some m) k, withinCap]
          · simp [hu, withinCap]

theorem backtrack_iff (cont : JSString → Bool) (s : JSString) (lo : Nat) :
    ∀ extra : Nat, backtrack cont s lo extra = true ↔
      ∃ n, lo ≤ n ∧ n ≤ lo + extra ∧ cont (s.drop n) = true := by
  intro extra
  induction extra with
  | zero =>
    simp only [backtrack]
    constructor
    · intro h
      exact ⟨lo, le_refl _, le_refl _, h⟩
    · rintro ⟨n, h1, h2, h3⟩
      have : n = lo := by omega
      subst this
      exact h3
  | succ e ih =>
    simp only [backtrack, Bool.or_eq_true, ih]
    constructor
    · rintro (h | ⟨n, h1, h2, h3⟩)
      · exact ⟨lo + e + 1, by omega, by omega, h⟩
      · exact ⟨n, h1, by omega, h3⟩
    · rintro ⟨n, h1, h2, h3⟩
      by_cases hn : n = lo + e + 1
      · subst hn
        exact Or.inl h3
      · exact Or.inr ⟨n, h1, by omega, h3⟩

/-- One item consumes a prefix of its class with an allowed length, and the rest
of the pattern matches what remains. -/
theorem matchItems_cons_iff (it : Item) (rest : List Item) (s : JSString) :
    matchItems (it :: rest) s = true ↔
      ∃ p r : JSString, s = p ++ r ∧ it.min ≤ p.length ∧ withinCap it.max p.length ∧
        (∀ u ∈ p, it.cls u = true) ∧ matchItems rest r = true := by
  simp only [matchItems]
  constructor
  · intro h
    by_cases hlt : greedy it.cls it.max s < it.min
    · simp [hlt] at h
    · simp only [hlt, if_false] at h
      obtain ⟨n, h1, h2, h3⟩ := (backtrack_iff _ _ _ _).1 h
      have hn : n ≤ greedy it.cls it.max s := by omega
      obtain ⟨h4, h5, h6⟩ := (le_greedy_iff _ _ _ _).1 hn
      refine ⟨s.take n, s.drop n, (List.take_append_drop n s).symm, ?_, ?_, h5, h3⟩
      · simp [List.length_take]; omega
      · have : (s.take n).length = n := by simp [List.length_take]; omega
        rw [this]; exact h6
  · rintro ⟨p, r, rfl, h1, h2, h3, h4⟩
    have hn : p.length ≤ greedy it.cls it.max (p ++ r) := by
      refine (le_greedy_iff _ _ _ _).2 ⟨by simp, ?_, h2⟩
      simpa using h3
    have hlt : ¬ greedy it.cls it.max (p ++ r) < it.min := by omega
    simp only [hlt, if_false]
    refine (backtrack_iff _ _ _ _).2 ⟨p.length, h1, by omega, ?_⟩
    simpa using h4

theorem specLetter_iff (u : Nat) : isAlpha u = true ↔ specLetter u := by
  have ha : 'a'.toNat = 97 := rfl
  have hz : 'z'.toNat = 122 := rfl
  have hA : 'A'.toNat = 65 := rfl
  have hZ : 'Z'.toNat = 90 := rfl
  simp [isAlpha, specLetter, ha, hz, hA, hZ]

theorem specDigit_iff (u : Nat) : isDigit u = true ↔ specDigit u := by
  have h0 : '0'.toNat = 48 := rfl
  have h9 : '9'.toNat = 57 := rfl
  simp [isDigit, specDigit, h0, h9]

theorem localClass_iff (u : Nat) :
    localClass u = true ↔
      (specLetter u ∨ specDigit u ∨ u = '.'.toNat ∨ u = '_'.toNat ∨ u = '-'.toNat) := by
  have hd : '.'.toNat = 46 := rfl
  have hu : '_'.toNat = 95 := rfl
  have hm : '-'.toNat = 45 := rfl
  simp only [localClass, Bool.or_eq_true, specLetter_iff, specDigit_iff, beq_iff_eq, hd, hu, hm]
  tauto

theorem domainClass_iff (u : Nat) :
    domainClass u = true ↔ (specLetter u ∨ specDigit u ∨ u = '.'.toNat ∨ u = '-'.toNat) := by
  have hd : '.'.toNat = 46 := rfl
  have hm : '-'.toNat = 45 := rfl
  simp only [domainClass, Bool.or_eq_true, specLetter_iff, specDigit_iff, beq_iff_eq, hd, hm]
  tauto

/-- A run of exactly one code unit of a one-element class is that code unit. -/
theorem single_of_class (c : Nat) (p : JSString) (h1 : 1 ≤ p.length) (h2 : p.length ≤ 1)
    (h3 : ∀ u ∈ p, (u == c) = true) : p = [c] := by
  match p, h1, h2, h3 with
  | [u], _, _, h3 =>
    have := h3 u (by simp)
    simp only [beq_iff_eq] at this
    rw [this]
  | [], h1, _, _ => simp at h1
  | _ :: _ :: _, _, h2, _ => simp at h2

/-- The regular expression accepts exactly the strings of the form the
specification describes. -/
theorem patternTest_iff (value : JSString) : patternTest value = true ↔ SpecEmailForm value := by
  have hat : js "@" = [64] := rfl
  have hdot : js "." = [46] := rfl
  unfold patternTest pattern SpecEmailForm
  constructor
  · intro h
    obtain ⟨p1, r1, e1, m1, -, c1, h⟩ := (matchItems_cons_iff _ _ _).1 h
    obtain ⟨p2, r2, e2, m2, x2, c2, h⟩ := (matchItems_cons_iff _ _ _).1 h
    obtain ⟨p3, r3, e3, m3, -, c3, h⟩ := (matchItems_cons_iff _ _ _).1 h
    obtain ⟨p4, r4, e4, m4, x4, c4, h⟩ := (matchItems_cons_iff _ _ _).1 h
    obtain ⟨p5, r5, e5, m5, x5, c5, h⟩ := (matchItems_cons_iff _ _ _).1 h
    have hr5 : r5 = [] := by simpa [matchItems] using h
    have hp2 : p2 = [64] := single_of_class 64 p2 m2 x2 c2
    have hp4 : p4 = [46] := single_of_class 46 p4 m4 x4 c4
    refine ⟨p1, p3, p5, ?_, ?_, ?_, ?_, ?_, m5, x5, ?_⟩
    · rw [e1, e2, e3, e4, e5, hr5, hp2, hp4, hat, hdot]; simp
    · intro hnil; rw [hnil] at m1; simp at m1
    · intro u hu; exact (localClass_iff u).1 (c1 u hu)
    · intro hnil; rw [hnil] at m3; simp at m3
    · intro u hu; exact (domainClass_iff u).1 (c3 u hu)
    · intro u hu; exact (specLetter_iff u).1 (c5 u hu)
  · rintro ⟨loc, domain, tld, rfl, hl, cl, hd, cd, t2, t6, ct⟩
    rw [hat, hdot]
    refine (matchItems_cons_iff _ _ _).2
      ⟨loc, [64] ++ domain ++ [46] ++ tld, by simp, ?_, trivial, ?_, ?_⟩
    · cases loc with
      | nil => exact absurd rfl hl
      | cons a l => simp
    · intro u hu; exact (localClass_iff u).2 (cl u hu)
    refine (matchItems_cons_iff _ _ _).2 ⟨[64], domain ++ [46] ++ tld, by simp, ?_, ?_, ?_, ?_⟩
    · simp
    · simp [withinCap]
    · intro u hu; simpa using hu
    refine (matchItems_cons_iff _ _ _).2 ⟨domain, [46] ++ tld, by simp, ?_, trivial, ?_, ?_⟩
    · cases domain with
      | nil => exact absurd rfl hd
      | cons a l => simp
    · intro u hu; exact (domainClass_iff u).2 (cd u hu)
    refine (matchItems_cons_iff _ _ _).2 ⟨[46], tld, by simp, ?_, ?_, ?_, ?_⟩
    · simp
    · simp [withinCap]
    · intro u hu; simpa using hu
    refine (matchItems_cons_iff _ _ _).2 ⟨tld, [], by simp, t2, t6, ?_, ?_⟩
    · intro u hu; exact (specLetter_iff u).2 (ct u hu)
    · simp [matchItems]

/-! ## Lemmas on records -/

namespace JSObject

variable {α : Type}

theorem get?_eq_none_iff (o : JSObject α) (k : JSString) : o.get? k = none ↔ k ∉ o.keys := by
  induction o with
  | nil => simp [get?, keys]
  | cons e o ih =>
    obtain ⟨k', v⟩ := e
    by_cases h : k' = k
    · simp [get?, keys, h]
    · have h' : ¬ k = k' := fun x => h x.symm
      simpa [get?, keys, h, h'] using ih

theorem hasOwnProperty_iff (o : JSObject α) (k : JSString) :
    o.hasOwnProperty k = true ↔ k ∈ o.keys := by
  unfold hasOwnProperty
  rw [Option.isSome_iff_ne_none, Ne, get?_eq_none_iff, not_not]

theorem keys_replace (o : JSObject α) (k : JSString) (v : α) : (o.replace k v).keys = o.keys := by
  induction o with
  | nil => rfl
  | cons e o ih =>
    obtain ⟨k', v'⟩ := e
    by_cases h : k' = k
    · simp [replace, keys, h]
    · simpa [replace, keys, h] using ih

theorem get?_replace_self (o : JSObject α) (k : JSString) (v : α) (h : k ∈ o.keys) :
    (o.replace k v).get? k = some v := by
  induction o with
  | nil => simp [keys] at h
  | cons e o ih =>
    obtain ⟨k', v'⟩ := e
    by_cases hk : k' = k
    · simp [replace, get?, hk]
    · have hmem : k ∈ keys o := by
        have h' : ¬ k = k' := fun x => hk x.symm
        simpa [keys, h'] using h
      simpa [replace, get?, hk] using ih hmem

theorem get?_replace_ne (o : JSObject α) (k k' : JSString) (v : α) (h : k' ≠ k) :
    (o.replace k v).get? k' = o.get? k' := by
  induction o with
  | nil => rfl
  | cons e o ih =>
    obtain ⟨k'', v'⟩ := e
    by_cases hk : k'' = k
    · have h2 : ¬ k'' = k' := by rw [hk]; exact fun x => h x.symm
      have h3 : ¬ k = k' := fun x => h x.symm
      simp [replace, get?, hk, h3]
    · by_cases hk' : k'' = k'
      · subst hk'
        simp [replace, get?, hk]
      · simpa [replace, get?, hk, hk'] using ih

theorem get?_append_single (o : JSObject α) (k k' : JSString) (v : α) :
    get? (o ++ [(k, v)]) k' = if k' ∈ o.keys then o.get? k' else if k = k' then some v else none := by
  induction o with
  | nil => simp [get?, keys]
  | cons e o ih =>
    obtain ⟨k'', v'⟩ := e
    by_cases hk : k'' = k'
    · simp [get?, keys, hk]
    · have hk2 : ¬ k' = k'' := fun x => hk x.symm
      have : get? ((k'', v') :: o ++ [(k, v)]) k' = get? (o ++ [(k, v)]) k' := by
        simp [get?, hk]
      rw [this, ih]
      have hiff : k' ∈ keys ((k'', v') :: o) ↔ k' ∈ keys o := by
        show k' ∈ k'' :: keys o ↔ k' ∈ keys o
        rw [List.mem_cons]
        exact ⟨fun x => x.resolve_left hk2, Or.inr⟩
      have hget : get? ((k'', v') :: o) k' = get? o k' := by simp [get?, hk]
      by_cases hm : k' ∈ keys o
      · rw [if_pos hm, if_pos (hiff.2 hm), hget]
      · rw [if_neg hm, if_neg (fun x => hm (hiff.1 x))]

theorem get?_put_self (o : JSObject α) (k : JSString) (v : α) (h : k ≠ js "__proto__") :
    (o.put k v).get? k = some v := by
  unfold put
  by_cases hk : o.hasOwnProperty k = true
  · rw [if_pos hk]
    exact get?_replace_self o k v ((hasOwnProperty_iff o k).1 hk)
  · rw [if_neg hk, if_neg h, get?_append_single]
    have : k ∉ o.keys := fun x => hk ((hasOwnProperty_iff o k).2 x)
    simp [this]

theorem get?_put_ne (o : JSObject α) (k k' : JSString) (v : α) (h : k' ≠ k) :
    (o.put k v).get? k' = o.get? k' := by
  unfold put
  by_cases hk : o.hasOwnProperty k = true
  · rw [if_pos hk]
    exact get?_replace_ne o k k' v h
  · rw [if_neg hk]
    by_cases hp : k = js "__proto__"
    · rw [if_pos hp]
    · rw [if_neg hp, get?_append_single]
      have h3 : ¬ k = k' := fun x => h x.symm
      by_cases hm : k' ∈ o.keys
      · simp [hm]
      · simp [hm, h3, (get?_eq_none_iff o k').2 hm]

theorem get?_delete_self (o : JSObject α) (k : JSString) : (o.delete k).get? k = none := by
  rw [get?_eq_none_iff]
  simp [keys, delete, List.mem_filter]

theorem get?_delete_ne (o : JSObject α) (k k' : JSString) (h : k' ≠ k) :
    (o.delete k).get? k' = o.get? k' := by
  induction o with
  | nil => rfl
  | cons e o ih =>
    obtain ⟨k'', v'⟩ := e
    by_cases hk : k'' = k
    · have h2 : ¬ k'' = k' := by rw [hk]; exact fun x => h x.symm
      have : delete ((k'', v') :: o) k = delete o k := by simp [delete, hk]
      rw [this, ih]
      simp [get?, h2]
    · have : delete ((k'', v') :: o) k = (k'', v') :: delete o k := by simp [delete, hk]
      rw [this]
      by_cases hk' : k'' = k'
      · simp [get?, hk']
      · simpa [get?, hk'] using ih

theorem get?_of_mem (o : JSObject α) (k : JSString) (v : α) (hn : o.keys.Nodup)
    (h : (k, v) ∈ o) : o.get? k = some v := by
  induction o with
  | nil => simp at h
  | cons e o ih =>
    obtain ⟨k', v'⟩ := e
    simp only [keys, List.map_cons, List.nodup_cons] at hn
    rcases List.mem_cons.1 h with h | h
    · cases h
      simp [get?]
    · have hne : ¬ k' = k := by
        intro x
        apply hn.1
        rw [x]
        exact List.mem_map_of_mem Prod.fst h
      simpa [get?, hne] using ih hn.2 h

theorem mem_of_get? (o : JSObject α) (k : JSString) (v : α) (h : o.get? k = some v) :
    (k, v) ∈ o := by
  induction o with
  | nil => simp [get?] at h
  | cons e o ih =>
    obtain ⟨k', v'⟩ := e
    by_cases hk : k' = k
    · simp [get?, hk] at h
      simp [hk, h]
    · simp [get?, hk] at h
      exact List.mem_cons_of_mem _ (ih h)

end JSObject

/-! ## Navigation -/

theorem navigateToSection_sections (nav : NavigationManager) (sectionId : JSString) :
    (nav.navigateToSection sectionId).2.sections = nav.sections := by
  unfold NavigationManager.navigateToSection
  split <;> rfl

theorem navigateToSection_current_mem (nav : NavigationManager) (sectionId : JSString)
    (h : nav.currentSection ∈ nav.sections) :
    (nav.navigateToSection sectionId).2.currentSection ∈ nav.sections := by
  unfold NavigationManager.navigateToSection
  split
  · assumption
  · exact h

theorem navigateAll_invariant (ids : List JSString) :
    ∀ nav : NavigationManager, nav.currentSection ∈ nav.sections →
      (navigateAll nav ids).sections = nav.sections ∧
      (navigateAll nav ids).currentSection ∈ nav.sections := by
  induction ids with
  | nil => intro nav h; exact ⟨rfl, h⟩
  | cons sectionId rest ih =>
    intro nav h
    have hs := navigateToSection_sections nav sectionId
    have hc := navigateToSection_current_mem nav sectionId h
    have := ih (nav.navigateToSection sectionId).2 (by rw [hs]; exact hc)
    rw [hs] at this
    exact this

/-- C8: in a navigation state whose section list is the one the constructor sets,
`navigateToSection(id)` with `id` one of about, work, contact returns the success
record for `id` and makes `id` the current section; with any other `id` it returns
the failure record with the message "Section not found" and changes nothing, so
`getCurrentSection()` answers as before. -/
theorem navigateToSection_spec (nav : NavigationManager) (sectionId : JSString)
    (hnav : nav.sections = [js "about", js "work", js "contact"]) :
    (sectionId ∈ [js "about", js "work", js "contact"] ∧
      (nav.navigateToSection sectionId).1 = NavResult.success sectionId ∧
      (nav.navigateToSection sectionId).2.getCurrentSection = sectionId ∧
      (nav.navigateToSection sectionId).2.getAllSections = nav.getAllSections) ∨
    (sectionId ∉ [js "about", js "work", js "contact"] ∧
      (nav.navigateToSection sectionId).1 = NavResult.failure (js "Section not found") ∧
      js "Section not found" ≠ js "" ∧
      (nav.navigateToSection sectionId).2 = nav ∧
      (nav.navigateToSection sectionId).2.getCurrentSection = nav.getCurrentSection) := by
  by_cases h : sectionId ∈ [js "about", js "work", js "contact"]
  · left
    have h' : sectionId ∈ nav.sections := by rw [hnav]; exact h
    refine ⟨h, ?_, ?_, ?_⟩ <;>
      simp [NavigationManager.navigateToSection, NavigationManager.getCurrentSection,
        NavigationManager.getAllSections, h']
  · right
    have h' : sectionId ∉ nav.sections := by rw [hnav]; exact h
    refine ⟨h, ?_, by decide, ?_, ?_⟩ <;>
      simp [NavigationManager.navigateToSection, NavigationManager.getCurrentSection, h']

/-- Witness of C8: the call `navigateToSection("work")` on a fresh manager. -/
theorem navigateToSection_spec_witness :
    NavigationManager.new.sections = [js "about", js "work", js "contact"] ∧
    ((js "work" ∈ [js "about", js "work", js "contact"] ∧
      (NavigationManager.new.navigateToSection (js "work")).1 = NavResult.success (js "work") ∧
      (NavigationManager.new.navigateToSection (js "work")).2.getCurrentSection = js "work" ∧
      (NavigationManager.new.navigateToSection (js "work")).2.getAllSections =
        NavigationManager.new.getAllSections) ∨
    (js "work" ∉ [js "about", js "work", js "contact"] ∧
      (NavigationManager.new.navigateToSection (js "work")).1 =
        NavResult.failure (js "Section not found") ∧
      js "Section not found" ≠ js "" ∧
      (NavigationManager.new.navigateToSection (js "work")).2 = NavigationManager.new ∧
      (NavigationManager.new.navigateToSection (js "work")).2.getCurrentSection =
        NavigationManager.new.getCurrentSection)) :=
  ⟨rfl, navigateToSection_spec NavigationManager.new (js "work") rfl⟩

/-- C9: after any finite run of `navigateToSection` calls on a freshly constructed
manager, the current section is one of about, work, contact and `getAllSections()`
is still the sequence about, work, contact. -/
theorem navigateAll_current_section (ids : List JSString) :
    (navigateAll NavigationManager.new ids).getCurrentSection ∈
        [js "about", js "work", js "contact"] ∧
      (navigateAll NavigationManager.new ids).getAllSections =
        [js "about", js "work", js "contact"] ∧
      NavigationManager.new.getCurrentSection = js "about" := by
  have h := navigateAll_invariant ids NavigationManager.new (by decide)
  exact ⟨h.2, h.1, rfl⟩

/-! ## The email validator -/

/-- C10: `validateEmail` returns "Email is required" when the trimmed value is
empty; otherwise it returns the empty string when the value has the form
`local@domain.tld` of the specification and "Please enter a valid email address"
when it has not; both messages are non-empty, "breana@example.com" is accepted and
"invalid-email" is rejected. -/
theorem validateEmail_spec (value : JSString) :
    ((trim value = [] ∧ validateEmail value = js "Email is required") ∨
      (trim value ≠ [] ∧ SpecEmailForm value ∧ validateEmail value = js "") ∨
      (trim value ≠ [] ∧ ¬ SpecEmailForm value ∧
        validateEmail value = js "Please enter a valid email address")) ∧
    js "Email is required" ≠ js "" ∧
    js "Please enter a valid email address" ≠ js "" ∧
    validateEmail (js "breana@example.com") = js "" ∧
    validateEmail (js "invalid-email") = js "Please enter a valid email address" := by
  refine ⟨?_, by decide, by decide, by decide, by decide⟩
  by_cases ht : trim value = []
  · left
    exact ⟨ht, by simp [validateEmail, ht]⟩
  · right
    by_cases hf : SpecEmailForm value
    · left
      have hp := (patternTest_iff value).2 hf
      exact ⟨ht, hf, by simp [validateEmail, ht, hp]⟩
    · right
      have hp : patternTest value = false := by
        cases hv : patternTest value with
        | false => rfl
        | true => exact absurd ((patternTest_iff value).1 hv) hf
      exact ⟨ht, hf, by simp [validateEmail, ht, hp]⟩

/-! ## Lemmas on `validateField` and `validateForm` -/

open PortfolioManager

theorem validateField_name (value : JSString) :
    validateField (js "name") value = .ok (.str (validateName value)) := rfl

theorem validateField_email (value : JSString) :
    validateField (js "email") value = .ok (.str (validateEmail value)) := rfl

theorem validateField_phone (value : JSString) :
    validateField (js "phone") value = .ok (.str (validatePhone value)) := rfl

theorem validateField_message (value : JSString) :
    validateField (js "message") value = .ok (.str (validateMessage value)) := rfl

/-- On a known field name `validateField` returns a primitive string. -/
theorem validateField_known (fieldName value : JSString) (h : fieldName ∈ fieldNames) :
    ∃ msg : JSString, validateField fieldName value = .ok (.str msg) := by
  simp only [fieldNames, List.mem_cons, List.mem_singleton, List.not_mem_nil, or_false] at h
  rcases h with h | h | h | h <;> subst h
  · exact ⟨_, validateField_name value⟩
  · exact ⟨_, validateField_email value⟩
  · exact ⟨_, validateField_phone value⟩
  · exact ⟨_, validateField_message value⟩

/-- A name that is neither a known field nor inherited from `Object.prototype`
has no validator: `validateField` returns the empty string. -/
theorem validateField_unknown (fieldName value : JSString) (h1 : fieldName ∉ fieldNames)
    (h2 : fieldName ∉ objectPrototypeKeys) : validateField fieldName value = .ok (.str (js "")) := by
  have hmap : validatorMap.get? fieldName = none := by
    rw [JSObject.get?_eq_none_iff]
    exact h1
  have ht : fieldName ≠ js "toString" := by
    intro x; apply h2; rw [x]; decide
  have hc : fieldName ≠ js "constructor" := by
    intro x; apply h2; rw [x]; decide
  have hi : fieldName ≠ js "isPrototypeOf" := by
    intro x; apply h2; rw [x]; decide
  simp [validateField, hmap, objectPrototypeCall, ht, hc, hi, h2]

/-- The name `__proto__` never passes `validateField`: the call throws. -/
theorem validateField_proto (value : JSString) :
    validateField (js "__proto__") value = .error .typeError := rfl

theorem invalidEntries_cons_truthy (field value : JSString) (rest : JSObject JSString)
    (error : JSVal) (hv : validateField field value = .ok error) (ht : error.truthy = true) :
    invalidEntries ((field, value) :: rest) = (field, error) :: invalidEntries rest := by
  simp [invalidEntries, hv, ht]

theorem invalidEntries_cons_falsy (field value : JSString) (rest : JSObject JSString)
    (error : JSVal) (hv : validateField field value = .ok error) (ht : ¬ error.truthy = true) :
    invalidEntries ((field, value) :: rest) = invalidEntries rest := by
  simp [invalidEntries, hv, ht]

theorem invalidEntries_cons_error (field value : JSString) (rest : JSObject JSString)
    (err : JSError) (hv : validateField field value = .error err) :
    invalidEntries ((field, value) :: rest) = invalidEntries rest := by
  simp [invalidEntries, hv]

theorem validateFormLoop_cons_truthy (field value : JSString) (rest : JSObject JSString)
    (acc : Validation) (error : JSVal) (hv : validateField field value = .ok error)
    (ht : error.truthy = true) :
    validateFormLoop ((field, value) :: rest) acc =
      validateFormLoop rest ⟨false, acc.errors.put field error⟩ := by
  simp [validateFormLoop, hv, ht]

theorem validateFormLoop_cons_falsy (field value : JSString) (rest : JSObject JSString)
    (acc : Validation) (error : JSVal) (hv : validateField field value = .ok error)
    (ht : ¬ error.truthy = true) :
    validateFormLoop ((field, value) :: rest) acc = validateFormLoop rest acc := by
  simp [validateFormLoop, hv, ht]

theorem validateFormLoop_cons_error (field value : JSString) (rest : JSObject JSString)
    (acc : Validation) (err : JSError) (hv : validateField field value = .error err) :
    validateFormLoop ((field, value) :: rest) acc = .error err := by
  simp [validateFormLoop, hv]

theorem invalidEntries_mem (fields : JSObject JSString) (k : JSString) (m : JSVal) :
    (k, m) ∈ invalidEntries fields ↔
      ∃ x, (k, x) ∈ fields ∧ validateField k x = .ok m ∧ m.truthy = true := by
  induction fields with
  | nil => simp [invalidEntries]
  | cons e rest ih =>
    obtain ⟨field, value⟩ := e
    cases hv : validateField field value with
    | error err =>
      rw [invalidEntries_cons_error _ _ _ _ hv]
      simp only [ih, List.mem_cons, Prod.mk.injEq]
      constructor
      · rintro ⟨x, hx, h1, h2⟩
        exact ⟨x, Or.inr hx, h1, h2⟩
      · rintro ⟨x, (⟨rfl, rfl⟩ | hx), h1, h2⟩
        · rw [hv] at h1; cases h1
        · exact ⟨x, hx, h1, h2⟩
    | ok error =>
      by_cases ht : error.truthy = true
      · rw [invalidEntries_cons_truthy _ _ _ _ hv ht]
        simp only [List.mem_cons, Prod.mk.injEq, ih]
        constructor
        · rintro (⟨rfl, rfl⟩ | ⟨x, hx, h1, h2⟩)
          · exact ⟨value, Or.inl ⟨rfl, rfl⟩, hv, ht⟩
          · exact ⟨x, Or.inr hx, h1, h2⟩
        · rintro ⟨x, (⟨rfl, rfl⟩ | hx), h1, h2⟩
          · rw [hv] at h1; cases h1
            exact Or.inl ⟨rfl, rfl⟩
          · exact Or.inr ⟨x, hx, h1, h2⟩
      · rw [invalidEntries_cons_falsy _ _ _ _ hv ht]
        simp only [ih, List.mem_cons, Prod.mk.injEq]
        constructor
        · rintro ⟨x, hx, h1, h2⟩
          exact ⟨x, Or.inr hx, h1, h2⟩
        · rintro ⟨x, (⟨rfl, rfl⟩ | hx), h1, h2⟩
          · rw [hv] at h1; cases h1
            exact absurd h2 ht
          · exact ⟨x, hx, h1, h2⟩

theorem invalidEntries_keys_sublist (fields : JSObject JSString) :
    List.Sublist (invalidEntries fields).keys fields.keys := by
  induction fields with
  | nil => simp [invalidEntries, JSObject.keys]
  | cons e rest ih =>
    obtain ⟨field, value⟩ := e
    cases hv : validateField field value with
    | error err =>
      rw [invalidEntries_cons_error _ _ _ _ hv]
      exact List.Sublist.cons _ ih
    | ok error =>
      by_cases ht : error.truthy = true
      · rw [invalidEntries_cons_truthy _ _ _ _ hv ht]
        exact List.Sublist.cons₂ _ ih
      · rw [invalidEntries_cons_falsy _ _ _ _ hv ht]
        exact List.Sublist.cons _ ih

theorem invalidEntries_no_proto (fields : JSObject JSString) :
    js "__proto__" ∉ (invalidEntries fields).keys := by
  intro h
  obtain ⟨e, he, hk⟩ := List.mem_map.1 h
  obtain ⟨k, m⟩ := e
  simp only at hk
  subst hk
  obtain ⟨x, -, h1, -⟩ := (invalidEntries_mem fields _ m).1 he
  rw [validateField_proto] at h1
  cases h1

theorem validateField_ok_ne_proto (fieldName value : JSString) (r : JSVal)
    (h : validateField fieldName value = .ok r) : fieldName ≠ js "__proto__" := by
  intro x
  rw [x, validateField_proto] at h
  cases h

theorem JSObject.put_new {α : Type} (o : JSObject α) (k : JSString) (v : α) (h1 : k ∉ o.keys)
    (h2 : k ≠ js "__proto__") : o.put k v = o ++ [(k, v)] := by
  unfold JSObject.put
  have : ¬ o.hasOwnProperty k = true := fun x => h1 ((JSObject.hasOwnProperty_iff o k).1 x)
  rw [if_neg this, if_neg h2]

/-- When no call of `validateField` throws, `validateForm` records exactly the
invalid fields, in order, and reports whether there is none. -/
theorem validateFormLoop_eq (fields : JSObject JSString) :
    ∀ acc : Validation, fields.keys.Nodup → (∀ k ∈ fields.keys, k ∉ acc.errors.keys) →
      (∀ e ∈ fields, ∃ r, validateField e.1 e.2 = .ok r) →
      validateFormLoop fields acc =
        .ok ⟨acc.isValid && (invalidEntries fields).isEmpty, acc.errors ++ invalidEntries fields⟩ := by
  induction fields with
  | nil =>
    intro acc _ _ _
    simp [validateFormLoop, invalidEntries]
  | cons e rest ih =>
    obtain ⟨field, value⟩ := e
    intro acc hn hd hok
    simp only [JSObject.keys, List.map_cons, List.nodup_cons] at hn
    obtain ⟨error, hv⟩ := hok (field, value) (List.mem_cons_self _ _)
    have hok' : ∀ e ∈ rest, ∃ r, validateField e.1 e.2 = .ok r :=
      fun e he => hok e (List.mem_cons_of_mem _ he)
    have hd' : ∀ k ∈ JSObject.keys rest, k ∉ acc.errors.keys :=
      fun k hk => hd k (List.mem_cons_of_mem _ hk)
    by_cases ht : error.truthy = true
    · rw [validateFormLoop_cons_truthy _ _ _ _ _ hv ht, invalidEntries_cons_truthy _ _ _ _ hv ht]
      have hput : acc.errors.put field error = acc.errors ++ [(field, error)] :=
        JSObject.put_new _ _ _ (hd field (List.mem_cons_self _ _))
          (validateField_ok_ne_proto _ _ _ hv)
      rw [hput, ih ⟨false, acc.errors ++ [(field, error)]⟩ hn.2 ?_ hok']
      · simp
      · intro k hk hmem
        simp only [JSObject.keys, List.map_append, List.map_cons, List.map_nil,
          List.mem_append, List.mem_singleton] at hmem
        rcases hmem with hmem | hmem
        · exact hd' k hk hmem
        · apply hn.1
          rw [← hmem]
          exact hk
    · rw [validateFormLoop_cons_falsy _ _ _ _ _ hv ht, invalidEntries_cons_falsy _ _ _ _ hv ht]
      exact ih acc hn.2 hd' hok'

theorem validateForm_eq (fields : JSObject JSString) (hn : fields.keys.Nodup)
    (hok : ∀ e ∈ fields, ∃ r, validateField e.1 e.2 = .ok r) :
    validateForm fields = .ok ⟨(invalidEntries fields).isEmpty, invalidEntries fields⟩ := by
  unfold validateForm
  rw [validateFormLoop_eq fields ⟨true, []⟩ hn (by simp [JSObject.keys]) hok]
  simp

/-- When every field validates the loop of `validateForm` changes nothing. -/
theorem validateFormLoop_all_valid (fields : JSObject JSString) :
    ∀ acc : Validation,
      (∀ e ∈ fields, ∃ r, validateField e.1 e.2 = .ok r ∧ r.truthy = false) →
      validateFormLoop fields acc = .ok acc := by
  induction fields with
  | nil => intro acc _; rfl
  | cons e rest ih =>
    obtain ⟨field, value⟩ := e
    intro acc h
    obtain ⟨r, hv, hr⟩ := h (field, value) (List.mem_cons_self _ _)
    rw [validateFormLoop_cons_falsy _ _ _ _ _ hv (by simp [hr])]
    exact ih acc (fun e he => h e (List.mem_cons_of_mem _ he))

theorem validateFormLoop_stays_invalid (fields : JSObject JSString) :
    ∀ (acc v : Validation), validateFormLoop fields acc = .ok v → acc.isValid = false →
      v.isValid = false := by
  induction fields with
  | nil =>
    intro acc v h hacc
    simp only [validateFormLoop, Except.ok.injEq] at h
    rw [← h]; exact hacc
  | cons e rest ih =>
    obtain ⟨field, value⟩ := e
    intro acc v h hacc
    cases hv : validateField field value with
    | error err => rw [validateFormLoop_cons_error _ _ _ _ _ hv] at h; cases h
    | ok error =>
      by_cases ht : error.truthy = true
      · rw [validateFormLoop_cons_truthy _ _ _ _ _ hv ht] at h
        exact ih _ v h rfl
      · rw [validateFormLoop_cons_falsy _ _ _ _ _ hv ht] at h
        exact ih _ v h hacc

/-- A result with `isValid` true means that every field validated. -/
theorem validateFormLoop_valid_inv (fields : JSObject JSString) :
    ∀ (acc v : Validation), validateFormLoop fields acc = .ok v → v.isValid = true →
      ∀ e ∈ fields, ∃ r, validateField e.1 e.2 = .ok r ∧ r.truthy = false := by
  induction fields with
  | nil => intro acc v _ _ e he; simp at he
  | cons e rest ih =>
    obtain ⟨field, value⟩ := e
    intro acc v h hvalid
    cases hv : validateField field value with
    | error err => rw [validateFormLoop_cons_error _ _ _ _ _ hv] at h; cases h
    | ok error =>
      by_cases ht : error.truthy = true
      · rw [validateFormLoop_cons_truthy _ _ _ _ _ hv ht] at h
        have := validateFormLoop_stays_invalid rest _ v h rfl
        rw [this] at hvalid; cases hvalid
      · rw [validateFormLoop_cons_falsy _ _ _ _ _ hv ht] at h
        intro e he
        rcases List.mem_cons.1 he with he | he
        · subst he
          exact ⟨error, hv, by simpa using ht⟩
        · exact ih acc v h hvalid e he

/-- The method `submitForm` when validation fails: the failure record, nothing stored. -/
theorem submitForm_of_invalid (pm : PortfolioManager) (fields : JSObject JSString)
    (v : Validation) (hv : validateForm fields = .ok v) (hi : v.isValid = false) :
    pm.submitForm fields = (.ok (.failure v.errors), pm) := by
  simp [submitForm, hv, hi]

/-! ## Lemmas on `setErrors` -/

theorem setErrors_fields (errs : JSObject JSVal) :
    ∀ h : ContactFormHandler, (setErrors errs h).fields = h.fields ∧
      (setErrors errs h).isSubmitting = h.isSubmitting := by
  induction errs with
  | nil => intro h; exact ⟨rfl, rfl⟩
  | cons e rest ih =>
    obtain ⟨field, error⟩ := e
    intro h
    simpa [setErrors, ContactFormHandler.setError] using ih (h.setError field error)

theorem setErrors_get?_other (errs : JSObject JSVal) (k : JSString) (hk : k ∉ errs.keys) :
    ∀ h : ContactFormHandler, (setErrors errs h).errors.get? k = h.errors.get? k := by
  induction errs with
  | nil => intro h; rfl
  | cons e rest ih =>
    obtain ⟨field, error⟩ := e
    intro h
    simp only [JSObject.keys, List.map_cons, List.mem_cons, not_or] at hk
    simp only [setErrors]
    rw [ih hk.2 (h.setError field error)]
    exact JSObject.get?_put_ne _ _ _ _ hk.1

theorem setErrors_get? (errs : JSObject JSVal) (k : JSString) (m : JSVal)
    (hn : errs.keys.Nodup) (hp : js "__proto__" ∉ errs.keys) (hm : (k, m) ∈ errs) :
    ∀ h : ContactFormHandler, (setErrors errs h).errors.get? k = some m := by
  induction errs with
  | nil => simp at hm
  | cons e rest ih =>
    obtain ⟨field, error⟩ := e
    intro h
    simp only [JSObject.keys, List.map_cons, List.nodup_cons] at hn
    simp only [JSObject.keys, List.map_cons, List.mem_cons, not_or] at hp
    simp only [setErrors]
    rcases List.mem_cons.1 hm with hm | hm
    · cases hm
      rw [setErrors_get?_other rest k hn.1]
      exact JSObject.get?_put_self _ _ _ (fun x => hp.1 x.symm)
    · exact ih hn.2 hp.2 hm (h.setError field error)

/-- When no call of `validateField` throws on a field of the record, `validateForm`
returns; its errors hold exactly the fields whose validation result is truthy, each
with that result, and `isValid` tells whether the errors are empty. -/
theorem validateForm_spec (fields : JSObject JSString) (hn : fields.keys.Nodup)
    (hok : ∀ e ∈ fields, ∃ r, validateField e.1 e.2 = .ok r) :
    ∃ v, validateForm fields = .ok v ∧
      (∀ k m, v.errors.get? k = some m ↔
        ∃ x, fields.get? k = some x ∧ validateField k x = .ok m ∧ m.truthy = true) ∧
      (v.isValid = true ↔ v.errors = []) := by
  refine ⟨_, validateForm_eq fields hn hok, ?_, ?_⟩
  · intro k m
    have hn' : (invalidEntries fields).keys.Nodup :=
      List.Sublist.nodup (invalidEntries_keys_sublist fields) hn
    constructor
    · intro h
      obtain ⟨x, hx, h1, h2⟩ :=
        (invalidEntries_mem fields k m).1 (JSObject.mem_of_get? _ _ _ h)
      exact ⟨x, JSObject.get?_of_mem _ _ _ hn hx, h1, h2⟩
    · rintro ⟨x, hx, h1, h2⟩
      exact JSObject.get?_of_mem _ _ _ hn'
        ((invalidEntries_mem fields k m).2 ⟨x, JSObject.mem_of_get? _ _ _ hx, h1, h2⟩)
  · exact List.isEmpty_iff

/-! ## `validateForm` and `submitForm` -/

/-- C1, at the failing input: for the record with the single property `valueOf`,
which is not a field name, `validatorMap["valueOf"]` is the function inherited from
`Object.prototype`; calling it throws, so `validateField` and with it `validateForm`
throw a TypeError instead of returning a result. -/
theorem validateForm_inherited_key_throws :
    js "valueOf" ∉ fieldNames ∧
    validateField (js "valueOf") (js "x") = .error .typeError ∧
    validateForm [(js "valueOf", js "x")] = .error .typeError := by
  decide

/-- C2: when `validateForm(fields)` returns with `isValid` true, `submitForm(fields)`
returns the success record with the confirmation message and the manager then
stores `fields` as its form data; such a record is one in which every present
field validates. -/
theorem submitForm_valid (pm : PortfolioManager) (fields : JSObject JSString) (v : Validation)
    (hv : validateForm fields = .ok v) (hvalid : v.isValid = true) :
    (pm.submitForm fields).1 =
        .ok (.success (js "✨ Message sent! I'll get back to you within 24 hours.")) ∧
      (pm.submitForm fields).2.formData = fields ∧
      (∀ e ∈ fields, ∃ r, validateField e.1 e.2 = .ok r ∧ r.truthy = false) := by
  refine ⟨?_, ?_, validateFormLoop_valid_inv fields _ v hv hvalid⟩
  · simp [submitForm, hv, hvalid, confirmation]
  · simp [submitForm, hv, hvalid]

/-- Witness of C2: submitting the field values of the demonstration. -/
theorem submitForm_valid_witness :
    validateForm demoFields = .ok ⟨true, []⟩ ∧
    (PortfolioManager.new.submitForm demoFields).1 =
        .ok (.success (js "✨ Message sent! I'll get back to you within 24 hours.")) ∧
      (PortfolioManager.new.submitForm demoFields).2.formData = demoFields ∧
      (∀ e ∈ demoFields, ∃ r, validateField e.1 e.2 = .ok r ∧ r.truthy = false) :=
  ⟨by decide, submitForm_valid PortfolioManager.new demoFields ⟨true, []⟩ (by decide) rfl⟩

/-- C3, at the failing input: the record with an empty `name`, which is invalid, and
a property `valueOf`; `submitForm` throws a TypeError instead of returning the
failure record (the stored form data is unchanged). -/
theorem submitForm_inherited_key_throws :
    validateField (js "name") (js "") = .ok (.str (js "Please enter your name")) ∧
    (PortfolioManager.new.submitForm [(js "name", js ""), (js "valueOf", js "x")]).1 =
      .error .typeError ∧
    (PortfolioManager.new.submitForm [(js "name", js ""), (js "valueOf", js "x")]).2 =
      PortfolioManager.new := by
  decide

/-! ## The facade: `updateFormField` -/

theorem updateFormField_of_truthy (s : System) (fieldName value : JSString) (r : JSVal)
    (hv : validateField fieldName value = .ok r) (ht : r.truthy = true) :
    updateFormField s fieldName value =
      (.ok false, { s with contactForm :=
        (s.contactForm.updateField fieldName value).2.setError fieldName r }) := by
  simp [updateFormField, hv, ht]

theorem updateFormField_of_falsy (s : System) (fieldName value : JSString) (r : JSVal)
    (hv : validateField fieldName value = .ok r) (ht : r.truthy = false) :
    updateFormField s fieldName value =
      (.ok true, { s with contactForm :=
        (s.contactForm.updateField fieldName value).2.clearError fieldName }) := by
  simp [updateFormField, hv, ht]

theorem updateField_errors (h : ContactFormHandler) (fieldName value : JSString) :
    (h.updateField fieldName value).2.errors = h.errors := by
  unfold ContactFormHandler.updateField
  split <;> rfl

/-- C4, as stated, fails: for the unknown name `age` the facade returns true, not
false; and for the unknown name `toString`, which every object inherits, it does
create an error entry. -/
theorem updateFormField_unknown_counterexample :
    js "age" ∉ fieldNames ∧
    (updateFormField System.initial (js "age") (js "42")).1 = .ok true ∧
    (updateFormField System.initial (js "age") (js "42")).1 ≠ .ok false ∧
    js "toString" ∉ fieldNames ∧
    System.initial.contactForm.errors.get? (js "toString") = none ∧
    (updateFormField System.initial (js "toString") (js "42")).2.contactForm.errors.get?
      (js "toString") = some (.str (js "[object Undefined]")) := by
  decide

/-- C4, amended: for a field name that is neither one of name, email, phone,
message nor the name of a property inherited from `Object.prototype`, the facade
`updateFormField` returns true and leaves the error map without an entry for that
name, all other entries being as before. -/
theorem updateFormField_unknown (s : System) (fieldName value : JSString)
    (h1 : fieldName ∉ fieldNames) (h2 : fieldName ∉ objectPrototypeKeys) :
    (updateFormField s fieldName value).1 = .ok true ∧
      (updateFormField s fieldName value).2.contactForm.errors.get? fieldName = none ∧
      (∀ k, k ≠ fieldName →
        (updateFormField s fieldName value).2.contactForm.errors.get? k =
          s.contactForm.errors.get? k) := by
  have hv := validateField_unknown fieldName value h1 h2
  rw [updateFormField_of_falsy s fieldName value _ hv (by decide)]
  refine ⟨rfl, ?_, ?_⟩
  · simp only [ContactFormHandler.clearError]
    exact JSObject.get?_delete_self _ _
  · intro k hk
    simp only [ContactFormHandler.clearError]
    rw [JSObject.get?_delete_ne _ _ _ hk, updateField_errors]

/-- Witness of C4 as amended: the unknown name `age` on the initial singletons. -/
theorem updateFormField_unknown_witness :
    js "age" ∉ fieldNames ∧ js "age" ∉ objectPrototypeKeys ∧
    ((updateFormField System.initial (js "age") (js "42")).1 = .ok true ∧
      (updateFormField System.initial (js "age") (js "42")).2.contactForm.errors.get? (js "age") =
        none ∧
      (∀ k, k ≠ js "age" →
        (updateFormField System.initial (js "age") (js "42")).2.contactForm.errors.get? k =
          System.initial.contactForm.errors.get? k)) :=
  ⟨by decide, by decide,
    updateFormField_unknown System.initial (js "age") (js "42") (by decide) (by decide)⟩

theorem fieldNames_nodup : fieldNames.Nodup := by decide

theorem proto_not_field : js "__proto__" ∉ fieldNames := by decide

theorem updateField_known (h : ContactFormHandler) (fieldName value : JSString)
    (hf : fieldName ∈ h.fields.keys) :
    h.updateField fieldName value =
      (true, { h with fields := h.fields.replace fieldName value }) := by
  have hown := (JSObject.hasOwnProperty_iff h.fields fieldName).2 hf
  simp [ContactFormHandler.updateField, JSObject.put, hown]

/-- C5: for a known field name `f` and a handler whose fields are the four slots,
`updateFormField(f, v)` stores `v` in slot `f`; with `msg` the message of
`validateField(f, v)`, it returns true and leaves no error under `f` when `msg` is
empty, and returns false and leaves `msg` under `f` otherwise; the other slots, the
other error entries and the two other singletons are unchanged. -/
theorem updateFormField_known (s : System) (f v : JSString)
    (hwf : s.contactForm.fields.keys = fieldNames) (hf : f ∈ fieldNames) :
    ∃ msg : JSString, validateField f v = .ok (.str msg) ∧
      ((msg = js "" ∧ (updateFormField s f v).1 = .ok true ∧
          (updateFormField s f v).2.contactForm.errors.get? f = none) ∨
        (msg ≠ js "" ∧ (updateFormField s f v).1 = .ok false ∧
          (updateFormField s f v).2.contactForm.errors.get? f = some (.str msg))) ∧
      (updateFormField s f v).2.contactForm.fields.get? f = some v ∧
      (updateFormField s f v).2.contactForm.fields.keys = fieldNames ∧
      (∀ k, k ≠ f →
        (updateFormField s f v).2.contactForm.fields.get? k = s.contactForm.fields.get? k ∧
        (updateFormField s f v).2.contactForm.errors.get? k = s.contactForm.errors.get? k) ∧
      (updateFormField s f v).2.portfolio = s.portfolio ∧
      (updateFormField s f v).2.navigation = s.navigation := by
  obtain ⟨msg, hmsg⟩ := validateField_known f v hf
  have hfk : f ∈ s.contactForm.fields.keys := by rw [hwf]; exact hf
  have hne : f ≠ js "__proto__" := fun x => proto_not_field (x ▸ hf)
  refine ⟨msg, hmsg, ?_⟩
  by_cases hm : msg = js ""
  · have ht : (JSVal.str msg).truthy = false := by rw [hm]; rfl
    rw [updateFormField_of_falsy s f v _ hmsg ht, updateField_known _ _ _ hfk]
    refine ⟨Or.inl ⟨hm, rfl, ?_⟩, ?_, ?_, ?_, rfl, rfl⟩
    · exact JSObject.get?_delete_self _ _
    · exact JSObject.get?_replace_self _ _ _ hfk
    · show JSObject.keys (JSObject.replace _ _ _) = _
      rw [JSObject.keys_replace]; exact hwf
    · intro k hk
      exact ⟨JSObject.get?_replace_ne _ _ _ _ hk, JSObject.get?_delete_ne _ _ _ hk⟩
  · have ht : (JSVal.str msg).truthy = true := by
      cases msg with
      | nil => exact absurd rfl hm
      | cons a l => rfl
    rw [updateFormField_of_truthy s f v _ hmsg ht, updateField_known _ _ _ hfk]
    refine ⟨Or.inr ⟨hm, rfl, ?_⟩, ?_, ?_, ?_, rfl, rfl⟩
    · exact JSObject.get?_put_self _ _ _ hne
    · exact JSObject.get?_replace_self _ _ _ hfk
    · show JSObject.keys (JSObject.replace _ _ _) = _
      rw [JSObject.keys_replace]; exact hwf
    · intro k hk
      exact ⟨JSObject.get?_replace_ne _ _ _ _ hk, JSObject.get?_put_ne _ _ _ _ hk⟩

/-- Witness of C5: the first call of the demonstration, `updateFormField('name', 'B')`. -/
theorem updateFormField_known_witness :
    System.initial.contactForm.fields.keys = fieldNames ∧ js "name" ∈ fieldNames ∧
    (∃ msg : JSString, validateField (js "name") (js "B") = .ok (.str msg) ∧
       ((msg = js "" ∧ (updateFormField System.initial (js "name") (js "B")).1 = .ok true ∧
           (updateFormField System.initial (js "name") (js "B")).2.contactForm.errors.get? (js "name") = none) ∨
         (msg ≠ js "" ∧ (updateFormField System.initial (js "name") (js "B")).1 = .ok false ∧
           (updateFormField System.initial (js "name") (js "B")).2.contactForm.errors.get? (js "name") = some (.str msg))) ∧
       (updateFormField System.initial (js "name") (js "B")).2.contactForm.fields.get? (js "name") = some (js "B") ∧
       (updateFormField System.initial (js "name") (js "B")).2.contactForm.fields.keys = fieldNames ∧
       (∀ k, k ≠ (js "name") →
         (updateFormField System.initial (js "name") (js "B")).2.contactForm.fields.get? k = System.initial.contactForm.fields.get? k ∧
         (updateFormField System.initial (js "name") (js "B")).2.contactForm.errors.get? k = System.initial.contactForm.errors.get? k) ∧
       (updateFormField System.initial (js "name") (js "B")).2.portfolio = System.initial.portfolio ∧
       (updateFormField System.initial (js "name") (js "B")).2.navigation = System.initial.navigation) :=
  ⟨by decide, by decide,
    updateFormField_known System.initial (js "name") (js "B") (by decide) (by decide)⟩

/-! ## The facade: `submitContactForm` -/

theorem mem_fieldNames_of_mem (fields : JSObject JSString) (hwf : fields.keys = fieldNames)
    (e : JSString × JSString) (he : e ∈ fields) : e.1 ∈ fieldNames := by
  rw [← hwf]
  exact List.mem_map_of_mem Prod.fst he

theorem get?_of_mem_fields (fields : JSObject JSString) (hwf : fields.keys = fieldNames)
    (e : JSString × JSString) (he : e ∈ fields) : fields.get? e.1 = some e.2 :=
  JSObject.get?_of_mem fields e.1 e.2 (by rw [hwf]; exact fieldNames_nodup) he

/-- C6: when the handler holds the four slots and each stored value validates,
`submitContactForm()` returns the success record with the confirmation message;
afterwards the four fields are empty strings, the error map is empty whatever it
held before, and the manager has stored the submitted values. -/
theorem submitContactForm_valid (s : System) (hwf : s.contactForm.fields.keys = fieldNames)
    (hvalid : ∀ k ∈ fieldNames, ∃ x, s.contactForm.fields.get? k = some x ∧
      validateField k x = .ok (.str (js ""))) :
    (submitContactForm s).1 = .ok (.success (js "✨ Message sent! I'll get back to you within 24 hours.")) ∧
      (∀ k ∈ fieldNames, (submitContactForm s).2.contactForm.fields.get? k = some (js "")) ∧
      (submitContactForm s).2.contactForm.fields.keys = fieldNames ∧
      (submitContactForm s).2.contactForm.errors = [] ∧
      (submitContactForm s).2.contactForm.hasErrors = false ∧
      (submitContactForm s).2.portfolio.formData = s.contactForm.fields := by
  have hall : ∀ e ∈ s.contactForm.fields, ∃ r, validateField e.1 e.2 = .ok r ∧ r.truthy = false := by
    intro e he
    obtain ⟨x, hx, hv⟩ := hvalid e.1 (mem_fieldNames_of_mem _ hwf e he)
    rw [get?_of_mem_fields _ hwf e he] at hx
    cases hx
    exact ⟨_, hv, rfl⟩
  have hform : validateForm s.contactForm.fields = .ok ⟨true, []⟩ :=
    validateFormLoop_all_valid _ _ hall
  have hsub : s.portfolio.submitForm s.contactForm.fields =
      (.ok (.success confirmation), { s.portfolio with formData := s.contactForm.fields }) := by
    simp [submitForm, hform]
  have hres : submitContactForm s = (.ok (.success confirmation),
      { s with portfolio := { s.portfolio with formData := s.contactForm.fields },
               contactForm := s.contactForm.resetForm }) := by
    simp [submitContactForm, ContactFormHandler.getFormData, hsub]
  rw [hres]
  refine ⟨rfl, ?_, ?_, rfl, rfl, rfl⟩
  · show ∀ k ∈ fieldNames, JSObject.get? ContactFormHandler.emptyFields k = some (js "")
    decide
  · show JSObject.keys ContactFormHandler.emptyFields = fieldNames
    decide

/-- Witness of C6: submitting once the demonstration has entered its values. -/
theorem submitContactForm_valid_witness :
    System.demo.contactForm.fields.keys = fieldNames ∧
    (∀ k ∈ fieldNames, ∃ x, System.demo.contactForm.fields.get? k = some x ∧
      validateField k x = .ok (.str (js ""))) ∧
    ((submitContactForm System.demo).1 = .ok (.success (js "✨ Message sent! I'll get back to you within 24 hours.")) ∧
       (∀ k ∈ fieldNames, (submitContactForm System.demo).2.contactForm.fields.get? k = some (js "")) ∧
       (submitContactForm System.demo).2.contactForm.fields.keys = fieldNames ∧
       (submitContactForm System.demo).2.contactForm.errors = [] ∧
       (submitContactForm System.demo).2.contactForm.hasErrors = false ∧
       (submitContactForm System.demo).2.portfolio.formData = System.demo.contactForm.fields) :=
  have hvalid : ∀ k ∈ fieldNames, ∃ x, System.demo.contactForm.fields.get? k = some x ∧
      validateField k x = .ok (.str (js "")) := by
    intro k hk
    simp only [fieldNames, List.mem_cons, List.mem_singleton, List.not_mem_nil, or_false] at hk
    rcases hk with hk | hk | hk | hk <;> subst hk
    · exact ⟨js "Breana Fulton", by decide, by decide⟩
    · exact ⟨js "breana@example.com", by decide, by decide⟩
    · exact ⟨js "", by decide, by decide⟩
    · exact ⟨js "This is a test message that is long enough to pass validation requirements.",
        by decide, by decide⟩
  ⟨by decide, hvalid, submitContactForm_valid System.demo (by decide) hvalid⟩

/-- C7: when the handler holds the four slots and a stored value is invalid,
`submitContactForm()` returns the failure record with the non-empty errors of
`validateForm`; the stored field values and the manager, with its last submitted
data, are unchanged, and afterwards the error map of the handler holds every pair
of the returned errors. -/
theorem submitContactForm_invalid (s : System) (hwf : s.contactForm.fields.keys = fieldNames)
    (hinv : ∃ k ∈ fieldNames, ∃ x msg, s.contactForm.fields.get? k = some x ∧
      validateField k x = .ok (.str msg) ∧ msg ≠ js "") :
    ∃ errors : JSObject JSVal, (submitContactForm s).1 = .ok (.failure errors) ∧
      errors ≠ [] ∧
      validateForm s.contactForm.fields = .ok ⟨false, errors⟩ ∧
      (submitContactForm s).2.contactForm.fields = s.contactForm.fields ∧
      (submitContactForm s).2.portfolio = s.portfolio ∧
      (∀ k m, errors.get? k = some m →
        (submitContactForm s).2.contactForm.errors.get? k = some m) := by
  have hn : s.contactForm.fields.keys.Nodup := by rw [hwf]; exact fieldNames_nodup
  have hok : ∀ e ∈ s.contactForm.fields, ∃ r, validateField e.1 e.2 = .ok r := by
    intro e he
    obtain ⟨msg, hmsg⟩ := validateField_known e.1 e.2 (mem_fieldNames_of_mem _ hwf e he)
    exact ⟨_, hmsg⟩
  have hform := validateForm_eq _ hn hok
  obtain ⟨k, -, x, msg, hx, hv, hmsg⟩ := hinv
  have ht : (JSVal.str msg).truthy = true := by
    cases msg with
    | nil => exact absurd rfl hmsg
    | cons a l => rfl
  have hmem : (k, JSVal.str msg) ∈ invalidEntries s.contactForm.fields :=
    (invalidEntries_mem _ _ _).2 ⟨x, JSObject.mem_of_get? _ _ _ hx, hv, ht⟩
  have hne : invalidEntries s.contactForm.fields ≠ [] := List.ne_nil_of_mem hmem
  have hemp : (invalidEntries s.contactForm.fields).isEmpty = false := by
    cases hi : invalidEntries s.contactForm.fields with
    | nil => exact absurd hi hne
    | cons a l => rfl
  rw [hemp] at hform
  have hsub := submitForm_of_invalid s.portfolio _ _ hform rfl
  have hres : submitContactForm s = (.ok (.failure (invalidEntries s.contactForm.fields)),
      { s with contactForm := setErrors (invalidEntries s.contactForm.fields) s.contactForm }) := by
    simp [submitContactForm, ContactFormHandler.getFormData, hsub]
  rw [hres]
  refine ⟨_, rfl, hne, hform, (setErrors_fields _ _).1, rfl, ?_⟩
  intro k' m hm
  exact setErrors_get? _ k' m (List.Sublist.nodup (invalidEntries_keys_sublist _) hn)
    (invalidEntries_no_proto _) (JSObject.mem_of_get? _ _ _ hm) _

/-- Witness of C7: submitting the initial, empty form, whose name is invalid. -/
theorem submitContactForm_invalid_witness :
    System.initial.contactForm.fields.keys = fieldNames ∧
    (∃ k ∈ fieldNames, ∃ x msg, System.initial.contactForm.fields.get? k = some x ∧
      validateField k x = .ok (.str msg) ∧ msg ≠ js "") ∧
    (∃ errors : JSObject JSVal, (submitContactForm System.initial).1 = .ok (.failure errors) ∧
       errors ≠ [] ∧
       validateForm System.initial.contactForm.fields = .ok ⟨false, errors⟩ ∧
       (submitContactForm System.initial).2.contactForm.fields = System.initial.contactForm.fields ∧
       (submitContactForm System.initial).2.portfolio = System.initial.portfolio ∧
       (∀ k m, errors.get? k = some m →
         (submitContactForm System.initial).2.contactForm.errors.get? k = some m)) :=
  have hinv : ∃ k ∈ fieldNames, ∃ x msg, System.initial.contactForm.fields.get? k = some x ∧
      validateField k x = .ok (.str msg) ∧ msg ≠ js "" :=
    ⟨js "name", by decide, js "", js "Please enter your name", by decide, by decide, by decide⟩
  ⟨by decide, hinv, submitContactForm_invalid System.initial (by decide) hinv⟩

/-! ## The other field validators -/

theorem length_pos_of_ne_nil (t : JSString) (h : t ≠ []) : 1 ≤ t.length := by
  cases t with
  | nil => exact absurd rfl h
  | cons a l => simp

/-- C11, as stated, fails: the value of three spaces is non-empty and its trimmed
length, 0, is less than 10, yet `validatePhone` returns the empty string. -/
theorem validatePhone_whitespace_counterexample :
    js "   " ≠ js "" ∧ (trim (js "   ")).length < 10 ∧ validatePhone (js "   ") = js "" := by
  decide

/-- C11, amended: `validatePhone` returns the empty string when the trimmed value is
empty, "Please enter a valid phone number" when the trimmed value is non-empty and
shorter than 10, and the empty string when the trimmed length is at least 10; the
message is non-empty and the empty value is accepted. -/
theorem validatePhone_spec (value : JSString) :
    ((trim value = [] ∧ validatePhone value = js "") ∨
      (trim value ≠ [] ∧ (trim value).length < 10 ∧
        validatePhone value = js "Please enter a valid phone number") ∨
      (10 ≤ (trim value).length ∧ validatePhone value = js "")) ∧
    js "Please enter a valid phone number" ≠ js "" ∧
    validatePhone (js "") = js "" := by
  refine ⟨?_, by decide, by decide⟩
  by_cases ht : trim value = []
  · left
    exact ⟨ht, by simp [validatePhone, ht]⟩
  · right
    by_cases hl : (trim value).length < 10
    · left
      exact ⟨ht, hl, by simp [validatePhone, ht, hl]⟩
    · right
      exact ⟨by omega, by simp [validatePhone, hl]⟩

/-- C12: `validateName` returns "Please enter your name" when the trimmed value is
empty, "Name must be at least 2 characters" when the trimmed length is 1, and the
empty string when the trimmed length is at least 2; both messages are non-empty, so
the empty string is returned exactly when the trimmed length is at least 2.  It
rejects "B" and whitespace-only input and accepts "Breana Fulton". -/
theorem validateName_spec (value : JSString) :
    ((trim value = [] ∧ validateName value = js "Please enter your name") ∨
      ((trim value).length = 1 ∧ validateName value = js "Name must be at least 2 characters") ∨
      (2 ≤ (trim value).length ∧ validateName value = js "")) ∧
    js "Please enter your name" ≠ js "" ∧
    js "Name must be at least 2 characters" ≠ js "" ∧
    validateName (js "B") = js "Name must be at least 2 characters" ∧
    validateName (js "   ") = js "Please enter your name" ∧
    validateName (js "Breana Fulton") = js "" := by
  refine ⟨?_, by decide, by decide, by decide, by decide, by decide⟩
  by_cases ht : trim value = []
  · left
    exact ⟨ht, by simp [validateName, ht]⟩
  · right
    have hpos := length_pos_of_ne_nil _ ht
    by_cases hl : (trim value).length < 2
    · left
      exact ⟨by omega, by simp [validateName, ht, hl]⟩
    · right
      exact ⟨by omega, by simp [validateName, ht, hl]⟩

/-- C13: `validateMessage` returns "Message cannot be empty" when the trimmed value
is empty, "Message should be at least 20 characters" when the trimmed length is
between 1 and 19, and the empty string when the trimmed length is at least 20; both
messages are non-empty.  A message of trimmed length 20 is accepted and one of
trimmed length 19 is rejected. -/
theorem validateMessage_spec (value : JSString) :
    ((trim value = [] ∧ validateMessage value = js "Message cannot be empty") ∨
      (1 ≤ (trim value).length ∧ (trim value).length ≤ 19 ∧
        validateMessage value = js "Message should be at least 20 characters") ∨
      (20 ≤ (trim value).length ∧ validateMessage value = js "")) ∧
    js "Message cannot be empty" ≠ js "" ∧
    js "Message should be at least 20 characters" ≠ js "" ∧
    (trim (js " 12345678901234567890 ")).length = 20 ∧
    validateMessage (js " 12345678901234567890 ") = js "" ∧
    (trim (js " 1234567890123456789 ")).length = 19 ∧
    validateMessage (js " 1234567890123456789 ") =
      js "Message should be at least 20 characters" := by
  refine ⟨?_, by decide, by decide, by decide, by decide, by decide, by decide⟩
  by_cases ht : trim value = []
  · left
    exact ⟨ht, by simp [validateMessage, ht]⟩
  · right
    have hpos := length_pos_of_ne_nil _ ht
    by_cases hl : (trim value).length < 20
    · left
      exact ⟨hpos, by omega, by simp [validateMessage, ht, hl]⟩
    · right
      exact ⟨by omega, by simp [validateMessage, ht, hl]⟩

/-! ## `ContactFormHandler` -/

theorem getFieldValue_of_get? (h : ContactFormHandler) (fieldName value : JSString)
    (hg : h.fields.get? fieldName = some value) :
    h.getFieldValue fieldName = FieldRead.str value := by
  unfold ContactFormHandler.getFieldValue
  rw [hg]
  cases value with
  | nil => rfl
  | cons a l => rfl

/-- C14: on a handler whose fields are the four slots, `updateField(name, value)`
returns true exactly when `name` is one of name, email, phone, message.  Then the
slot holds `value`, `getFieldValue(name)` returns it, and the other slots, the set
of slots, the error map and the submitting flag are as before; otherwise it returns
false and the handler is unchanged. -/
theorem updateField_spec (h : ContactFormHandler) (fieldName value : JSString)
    (hwf : h.fields.keys = fieldNames) :
    ((fieldName ∈ fieldNames ∧ (h.updateField fieldName value).1 = true ∧
        (h.updateField fieldName value).2.fields.get? fieldName = some value ∧
        (h.updateField fieldName value).2.getFieldValue fieldName = FieldRead.str value ∧
        (∀ k, k ≠ fieldName → (h.updateField fieldName value).2.fields.get? k = h.fields.get? k) ∧
        (h.updateField fieldName value).2.fields.keys = fieldNames ∧
        (h.updateField fieldName value).2.errors = h.errors ∧
        (h.updateField fieldName value).2.isSubmitting = h.isSubmitting) ∨
      (fieldName ∉ fieldNames ∧ (h.updateField fieldName value).1 = false ∧
        (h.updateField fieldName value).2 = h)) := by
  by_cases hf : fieldName ∈ fieldNames
  · left
    have hfk : fieldName ∈ h.fields.keys := by rw [hwf]; exact hf
    have hg : JSObject.get? (JSObject.replace h.fields fieldName value) fieldName = some value :=
      JSObject.get?_replace_self _ _ _ hfk
    rw [updateField_known _ _ _ hfk]
    refine ⟨hf, rfl, hg, getFieldValue_of_get? _ _ _ hg, ?_, ?_, rfl, rfl⟩
    · intro k hk
      exact JSObject.get?_replace_ne _ _ _ _ hk
    · show JSObject.keys (JSObject.replace _ _ _) = _
      rw [JSObject.keys_replace]; exact hwf
  · right
    have hown : ¬ h.fields.hasOwnProperty fieldName = true := by
      rw [JSObject.hasOwnProperty_iff, hwf]; exact hf
    refine ⟨hf, ?_, ?_⟩ <;> simp [ContactFormHandler.updateField, hown]

/-- Witness of C14: entering an email address in a fresh handler. -/
theorem updateField_spec_witness :
    ContactFormHandler.new.fields.keys = fieldNames ∧
    (((js "email") ∈ fieldNames ∧ (ContactFormHandler.new.updateField (js "email") (js "breana@example.com")).1 = true ∧
        (ContactFormHandler.new.updateField (js "email") (js "breana@example.com")).2.fields.get? (js "email") = some (js "breana@example.com") ∧
        (ContactFormHandler.new.updateField (js "email") (js "breana@example.com")).2.getFieldValue (js "email") = FieldRead.str (js "breana@example.com") ∧
        (∀ k, k ≠ (js "email") → (ContactFormHandler.new.updateField (js "email") (js "breana@example.com")).2.fields.get? k = ContactFormHandler.new.fields.get? k) ∧
        (ContactFormHandler.new.updateField (js "email") (js "breana@example.com")).2.fields.keys = fieldNames ∧
        (ContactFormHandler.new.updateField (js "email") (js "breana@example.com")).2.errors = ContactFormHandler.new.errors ∧
        (ContactFormHandler.new.updateField (js "email") (js "breana@example.com")).2.isSubmitting = ContactFormHandler.new.isSubmitting) ∨
      ((js "email") ∉ fieldNames ∧ (ContactFormHandler.new.updateField (js "email") (js "breana@example.com")).1 = false ∧
        (ContactFormHandler.new.updateField (js "email") (js "breana@example.com")).2 = ContactFormHandler.new)) :=
  ⟨by decide,
    updateField_spec ContactFormHandler.new (js "email") (js "breana@example.com") (by decide)⟩

/-- C15, at the failing input: `toString` and `constructor` are not field names, yet
`validateField` does not return the empty string for them: `validatorMap[fieldName]`
finds the members inherited from `Object.prototype`, and the call returns
"[object Undefined]", respectively a `String` object. -/
theorem validateField_inherited_name :
    js "toString" ∉ fieldNames ∧
    validateField (js "toString") (js "x") = .ok (.str (js "[object Undefined]")) ∧
    validateField (js "toString") (js "x") ≠ .ok (.str (js "")) ∧
    js "constructor" ∉ fieldNames ∧
    validateField (js "constructor") (js "x") = .ok (.stringObject (js "x")) := by
  decide

/-- C16: `resetForm()` leaves the four fields name, email, phone, message as empty
strings and no other slot, and an empty error map: `getFormData()` returns the four
empty slots, `getErrors()` an empty mapping and `hasErrors()` false. -/
theorem resetForm_spec (h : ContactFormHandler) :
    (∀ k ∈ fieldNames, h.resetForm.fields.get? k = some (js "")) ∧
    h.resetForm.fields.keys = fieldNames ∧
    h.resetForm.errors = [] ∧
    h.resetForm.getFormData =
      [(js "name", js ""), (js "email", js ""), (js "phone", js ""), (js "message", js "")] ∧
    h.resetForm.getErrors = [] ∧
    h.resetForm.hasErrors = false ∧
    h.resetForm.isSubmitting = h.isSubmitting := by
  refine ⟨?_, ?_, rfl, rfl, rfl, rfl, rfl⟩
  · show ∀ k ∈ fieldNames, JSObject.get? ContactFormHandler.emptyFields k = some (js "")
    decide
  · show JSObject.keys ContactFormHandler.emptyFields = fieldNames
    decide

theorem JSObject.delete_of_get?_none {α : Type} (o : JSObject α) (k : JSString)
    (h : o.get? k = none) : o.delete k = o := by
  have hk := (JSObject.get?_eq_none_iff o k).1 h
  unfold JSObject.delete
  rw [List.filter_eq_self]
  intro e he
  have : e.1 ≠ k := by
    intro x
    apply hk
    rw [← x]
    exact List.mem_map_of_mem Prod.fst he
  simpa using this

theorem JSObject.delete_delete {α : Type} (o : JSObject α) (k : JSString) :
    (o.delete k).delete k = o.delete k :=
  JSObject.delete_of_get?_none _ _ (JSObject.get?_delete_self o k)

/-- C17: `clearError(fieldName)` on a handler without an entry for `fieldName`
changes nothing; in every case the error map afterwards has no entry for
`fieldName`, every other entry, the fields and the flag are as before, and a second
`clearError(fieldName)` changes nothing more. -/
theorem clearError_spec (h : ContactFormHandler) (fieldName : JSString) :
    (h.errors.get? fieldName = none → h.clearError fieldName = h) ∧
    (h.clearError fieldName).errors.get? fieldName = none ∧
    (∀ k, k ≠ fieldName → (h.clearError fieldName).errors.get? k = h.errors.get? k) ∧
    (h.clearError fieldName).fields = h.fields ∧
    (h.clearError fieldName).isSubmitting = h.isSubmitting ∧
    (h.clearError fieldName).clearError fieldName = h.clearError fieldName := by
  refine ⟨?_, JSObject.get?_delete_self _ _, ?_, rfl, rfl, ?_⟩
  · intro hn
    simp only [ContactFormHandler.clearError]
    rw [JSObject.delete_of_get?_none _ _ hn]
  · intro k hk
    exact JSObject.get?_delete_ne _ _ _ hk
  · simp only [ContactFormHandler.clearError]
    rw [JSObject.delete_delete]

/-- Witness of C17: clearing the error of `name` in a fresh handler, which has none. -/
theorem clearError_spec_witness :
    ContactFormHandler.new.errors.get? (js "name") = none ∧
    ContactFormHandler.new.clearError (js "name") = ContactFormHandler.new :=
  ⟨by decide, (clearError_spec ContactFormHandler.new (js "name")).1 (by decide)⟩

/-! ## States the facade reaches -/

theorem emptyFields_get? (f x : JSString)
    (h : JSObject.get? ContactFormHandler.emptyFields f = some x) : x = js "" := by
  have hm := JSObject.mem_of_get? _ _ _ h
  simp only [ContactFormHandler.emptyFields, List.mem_cons, Prod.mk.injEq, List.mem_singleton,
    List.not_mem_nil, or_false] at hm
  rcases hm with hm | hm | hm | hm <;> exact hm.2

/-- The invariant holds whenever the fields are the four empty slots and there is
no error, as after construction and after `resetForm`. -/
theorem formInvariant_of_reset (s : System)
    (hf : s.contactForm.fields = ContactFormHandler.emptyFields) (he : s.contactForm.errors = []) :
    FormInvariant s := by
  refine ⟨?_, ?_, ?_⟩
  · rw [hf]; decide
  · intro f _ x m _ hm
    rw [he] at hm
    simp [JSObject.get?] at hm
  · intro f _ x hx _
    rw [hf] at hx
    exact Or.inl (emptyFields_get? f x hx)

/-- The invariant only looks at the fields and at the errors under field names. -/
theorem formInvariant_of_same (s t : System) (hinv : FormInvariant s)
    (hf : t.contactForm.fields = s.contactForm.fields)
    (he : ∀ f ∈ fieldNames, t.contactForm.errors.get? f = s.contactForm.errors.get? f) :
    FormInvariant t := by
  obtain ⟨h1, h2, h3⟩ := hinv
  refine ⟨by rw [hf]; exact h1, ?_, ?_⟩
  · intro f hfm x m hx hm
    rw [hf] at hx
    rw [he f hfm] at hm
    exact h2 f hfm x m hx hm
  · intro f hfm x hx hm
    rw [hf] at hx
    rw [he f hfm] at hm
    exact h3 f hfm x hx hm

theorem updateField_unknown (h : ContactFormHandler) (fieldName value : JSString)
    (hf : fieldName ∉ h.fields.keys) : h.updateField fieldName value = (false, h) := by
  have hown : ¬ h.fields.hasOwnProperty fieldName = true := by
    rw [JSObject.hasOwnProperty_iff]; exact hf
  simp [ContactFormHandler.updateField, hown]

theorem updateFormField_of_error (s : System) (fieldName value : JSString) (err : JSError)
    (hv : validateField fieldName value = .error err) :
    updateFormField s fieldName value =
      (.error err, { s with contactForm := (s.contactForm.updateField fieldName value).2 }) := by
  simp [updateFormField, hv]

theorem formInvariant_updateFormField_unknown (s : System) (g v : JSString)
    (hinv : FormInvariant s) (hg : g ∉ fieldNames) :
    FormInvariant (updateFormField s g v).2 := by
  have hgk : g ∉ s.contactForm.fields.keys := by rw [hinv.1]; exact hg
  have hne : ∀ f ∈ fieldNames, f ≠ g := fun f hf x => hg (x ▸ hf)
  cases hv : validateField g v with
  | error err =>
    rw [updateFormField_of_error s g v err hv, updateField_unknown _ _ _ hgk]
    exact formInvariant_of_same s _ hinv rfl (fun _ _ => rfl)
  | ok r =>
    cases ht : r.truthy with
    | true =>
      rw [updateFormField_of_truthy s g v r hv ht, updateField_unknown _ _ _ hgk]
      exact formInvariant_of_same s _ hinv rfl
        (fun f hf => JSObject.get?_put_ne _ _ _ _ (hne f hf))
    | false =>
      rw [updateFormField_of_falsy s g v r hv ht, updateField_unknown _ _ _ hgk]
      exact formInvariant_of_same s _ hinv rfl
        (fun f hf => JSObject.get?_delete_ne _ _ _ (hne f hf))

theorem formInvariant_updateFormField_known (s : System) (g v : JSString)
    (hinv : FormInvariant s) (hg : g ∈ fieldNames) :
    FormInvariant (updateFormField s g v).2 := by
  obtain ⟨h1, h2, h3⟩ := hinv
  have hgk : g ∈ s.contactForm.fields.keys := by rw [h1]; exact hg
  have hne : g ≠ js "__proto__" := fun x => proto_not_field (x ▸ hg)
  obtain ⟨msg, hmsg⟩ := validateField_known g v hg
  have hself : JSObject.get? (JSObject.replace s.contactForm.fields g v) g = some v :=
    JSObject.get?_replace_self _ _ _ hgk
  have hkeys : JSObject.keys (JSObject.replace s.contactForm.fields g v) = fieldNames := by
    rw [JSObject.keys_replace]; exact h1
  cases ht : (JSVal.str msg).truthy with
  | true =>
    rw [updateFormField_of_truthy s g v _ hmsg ht, updateField_known _ _ _ hgk]
    refine ⟨hkeys, ?_, ?_⟩
    · intro f hf x m hx hm
      by_cases hfg : f = g
      · subst hfg
        have hx' : JSObject.get? (JSObject.replace s.contactForm.fields f v) f = some x := hx
        have hm' : JSObject.get? (JSObject.put s.contactForm.errors f (JSVal.str msg)) f = some m := hm
        rw [hself] at hx'
        rw [JSObject.get?_put_self _ _ _ hne] at hm'
        cases hx'; cases hm'
        exact ⟨hmsg, ht⟩
      · have hx' : JSObject.get? (JSObject.replace s.contactForm.fields g v) f = some x := hx
        have hm' : JSObject.get? (JSObject.put s.contactForm.errors g (JSVal.str msg)) f = some m := hm
        rw [JSObject.get?_replace_ne _ _ _ _ hfg] at hx'
        rw [JSObject.get?_put_ne _ _ _ _ hfg] at hm'
        exact h2 f hf x m hx' hm'
    · intro f hf x hx hm
      by_cases hfg : f = g
      · subst hfg
        have hm' : JSObject.get? (JSObject.put s.contactForm.errors f (JSVal.str msg)) f = none := hm
        rw [JSObject.get?_put_self _ _ _ hne] at hm'
        cases hm'
      · have hx' : JSObject.get? (JSObject.replace s.contactForm.fields g v) f = some x := hx
        have hm' : JSObject.get? (JSObject.put s.contactForm.errors g (JSVal.str msg)) f = none := hm
        rw [JSObject.get?_replace_ne _ _ _ _ hfg] at hx'
        rw [JSObject.get?_put_ne _ _ _ _ hfg] at hm'
        exact h3 f hf x hx' hm'
  | false =>
    have hmsg0 : msg = js "" := by
      cases msg with
      | nil => rfl
      | cons a l => cases ht
    rw [updateFormField_of_falsy s g v _ hmsg ht, updateField_known _ _ _ hgk]
    refine ⟨hkeys, ?_, ?_⟩
    · intro f hf x m hx hm
      by_cases hfg : f = g
      · subst hfg
        have hm' : JSObject.get? (JSObject.delete s.contactForm.errors f) f = some m := hm
        rw [JSObject.get?_delete_self] at hm'
        cases hm'
      · have hx' : JSObject.get? (JSObject.replace s.contactForm.fields g v) f = some x := hx
        have hm' : JSObject.get? (JSObject.delete s.contactForm.errors g) f = some m := hm
        rw [JSObject.get?_replace_ne _ _ _ _ hfg] at hx'
        rw [JSObject.get?_delete_ne _ _ _ hfg] at hm'
        exact h2 f hf x m hx' hm'
    · intro f hf x hx hm
      by_cases hfg : f = g
      · subst hfg
        have hx' : JSObject.get? (JSObject.replace s.contactForm.fields f v) f = some x := hx
        rw [hself] at hx'
        cases hx'
        right
        rw [hmsg, hmsg0]
      · have hx' : JSObject.get? (JSObject.replace s.contactForm.fields g v) f = some x := hx
        have hm' : JSObject.get? (JSObject.delete s.contactForm.errors g) f = none := hm
        rw [JSObject.get?_replace_ne _ _ _ _ hfg] at hx'
        rw [JSObject.get?_delete_ne _ _ _ hfg] at hm'
        exact h3 f hf x hx' hm'

theorem formInvariant_submitContactForm (s : System) (hinv : FormInvariant s) :
    FormInvariant (submitContactForm s).2 := by
  have hwf := hinv.1
  have hn : s.contactForm.fields.keys.Nodup := by rw [hwf]; exact fieldNames_nodup
  have hok : ∀ e ∈ s.contactForm.fields, ∃ r, validateField e.1 e.2 = .ok r := by
    intro e he
    obtain ⟨msg, hmsg⟩ := validateField_known e.1 e.2 (mem_fieldNames_of_mem _ hwf e he)
    exact ⟨_, hmsg⟩
  have hform := validateForm_eq _ hn hok
  cases hi : invalidEntries s.contactForm.fields with
  | nil =>
    rw [hi] at hform
    have hsub : s.portfolio.submitForm s.contactForm.fields =
        (.ok (.success confirmation), { s.portfolio with formData := s.contactForm.fields }) := by
      simp [submitForm, hform]
    have hres : submitContactForm s = (.ok (.success confirmation),
        { s with portfolio := { s.portfolio with formData := s.contactForm.fields },
                 contactForm := s.contactForm.resetForm }) := by
      simp [submitContactForm, ContactFormHandler.getFormData, hsub]
    rw [hres]
    exact formInvariant_of_reset _ rfl rfl
  | cons a l =>
    have hemp : (invalidEntries s.contactForm.fields).isEmpty = false := by rw [hi]; rfl
    rw [hemp] at hform
    have hsub := submitForm_of_invalid s.portfolio _ _ hform rfl
    have hres : submitContactForm s = (.ok (.failure (invalidEntries s.contactForm.fields)),
        { s with contactForm :=
          setErrors (invalidEntries s.contactForm.fields) s.contactForm }) := by
      simp [submitContactForm, ContactFormHandler.getFormData, hsub]
    rw [hres]
    have hn' : (invalidEntries s.contactForm.fields).keys.Nodup :=
      List.Sublist.nodup (invalidEntries_keys_sublist _) hn
    have hfields : (setErrors (invalidEntries s.contactForm.fields) s.contactForm).fields =
        s.contactForm.fields := (setErrors_fields _ _).1
    obtain ⟨h1, h2, h3⟩ := hinv
    have key : ∀ f, f ∈ (invalidEntries s.contactForm.fields).keys → ∀ x,
        s.contactForm.fields.get? f = some x →
        ∃ m, (setErrors (invalidEntries s.contactForm.fields) s.contactForm).errors.get? f =
            some m ∧ validateField f x = .ok m ∧ m.truthy = true := by
      intro f hf x hx
      obtain ⟨e, he, hk⟩ := List.mem_map.1 hf
      obtain ⟨k, m⟩ := e
      simp only at hk
      subst hk
      obtain ⟨x', hx', hv, ht⟩ := (invalidEntries_mem _ _ _).1 he
      have := JSObject.get?_of_mem _ _ _ hn hx'
      rw [hx] at this
      cases this
      exact ⟨m, setErrors_get? _ _ _ hn' (invalidEntries_no_proto _) he _, hv, ht⟩
    refine ⟨by rw [hfields]; exact h1, ?_, ?_⟩
    · intro f hf x m hx hm
      have hx' : s.contactForm.fields.get? f = some x := by rw [← hfields]; exact hx
      by_cases hfk : f ∈ (invalidEntries s.contactForm.fields).keys
      · obtain ⟨m', hm', hv, ht⟩ := key f hfk x hx'
        have hm2 : (setErrors (invalidEntries s.contactForm.fields) s.contactForm).errors.get? f =
            some m := hm
        rw [hm'] at hm2
        cases hm2
        exact ⟨hv, ht⟩
      · have hm2 : (setErrors (invalidEntries s.contactForm.fields) s.contactForm).errors.get? f =
            some m := hm
        rw [setErrors_get?_other _ _ hfk] at hm2
        exact h2 f hf x m hx' hm2
    · intro f hf x hx hm
      have hx' : s.contactForm.fields.get? f = some x := by rw [← hfields]; exact hx
      by_cases hfk : f ∈ (invalidEntries s.contactForm.fields).keys
      · obtain ⟨m', hm', -, -⟩ := key f hfk x hx'
        have hm2 : (setErrors (invalidEntries s.contactForm.fields) s.contactForm).errors.get? f =
            none := hm
        rw [hm'] at hm2
        cases hm2
      · have hm2 : (setErrors (invalidEntries s.contactForm.fields) s.contactForm).errors.get? f =
            none := hm
        rw [setErrors_get?_other _ _ hfk] at hm2
        exact h3 f hf x hx' hm2

theorem formInvariant_run (s : System) (call : FacadeCall) (hinv : FormInvariant s) :
    FormInvariant (call.run s) := by
  cases call with
  | updateFormField g v =>
    by_cases hg : g ∈ fieldNames
    · exact formInvariant_updateFormField_known s g v hinv hg
    · exact formInvariant_updateFormField_unknown s g v hinv hg
  | submitContactForm => exact formInvariant_submitContactForm s hinv

theorem formInvariant_runCalls (calls : List FacadeCall) :
    ∀ s : System, FormInvariant s → FormInvariant (runCalls s calls) := by
  induction calls with
  | nil => intro s h; exact h
  | cons call rest ih => intro s h; exact ih _ (formInvariant_run s call h)

theorem formInvariant_reachable (calls : List FacadeCall) :
    FormInvariant (runCalls System.initial calls) :=
  formInvariant_runCalls calls _ (formInvariant_of_reset _ rfl rfl)

theorem get?_of_mem_keys {α : Type} (o : JSObject α) (k : JSString) (h : k ∈ o.keys) :
    ∃ x, o.get? k = some x := by
  cases hg : o.get? k with
  | none => exact absurd h ((JSObject.get?_eq_none_iff o k).1 hg)
  | some x => exact ⟨x, rfl⟩

/-- C18, as stated, fails: in the initial state, reached by the empty run of calls,
the field `name` has no entry in the error map, yet its stored value, the empty
string, is not valid. -/
theorem facade_no_error_counterexample :
    runCalls System.initial [] = System.initial ∧
    js "name" ∈ fieldNames ∧
    System.initial.contactForm.errors.get? (js "name") = none ∧
    System.initial.contactForm.fields.get? (js "name") = some (js "") ∧
    validateField (js "name") (js "") = .ok (.str (js "Please enter your name")) ∧
    validateField (js "name") (js "") ≠ .ok (.str (js "")) := by
  decide

/-- C18, amended: in every state reached from the initial one by a run of
`updateFormField` and `submitContactForm` calls, a known field without an entry in
the error map holds a value that is valid or is the empty string. -/
theorem facade_no_error_valid_or_empty (calls : List FacadeCall) (f : JSString)
    (hf : f ∈ fieldNames)
    (hnone : (runCalls System.initial calls).contactForm.errors.get? f = none) :
    ∃ x, (runCalls System.initial calls).contactForm.fields.get? f = some x ∧
      (x = js "" ∨ validateField f x = .ok (.str (js ""))) := by
  obtain ⟨h1, -, h3⟩ := formInvariant_reachable calls
  obtain ⟨x, hx⟩ := get?_of_mem_keys _ f (by rw [h1]; exact hf)
  exact ⟨x, hx, h3 f hf x hx hnone⟩

/-- Witness of C18 as amended: after entering a valid name, `name` has no error. -/
theorem facade_no_error_valid_or_empty_witness :
    js "name" ∈ fieldNames ∧
    (runCalls System.initial
      [.updateFormField (js "name") (js "Breana Fulton")]).contactForm.errors.get? (js "name") =
        none ∧
    (∃ x, (runCalls System.initial
      [.updateFormField (js "name") (js "Breana Fulton")]).contactForm.fields.get? (js "name") =
        some x ∧
      (x = js "" ∨ validateField (js "name") x = .ok (.str (js "")))) :=
  ⟨by decide, by decide,
    facade_no_error_valid_or_empty [.updateFormField (js "name") (js "Breana Fulton")]
      (js "name") (by decide) (by decide)⟩

/-- C19: in every state reached from the initial one by a run of `updateFormField`
and `submitContactForm` calls, whatever the field names and values, an entry of the
error map under a known field is a non-empty message and is the result of
`validateField` on the value now stored in that field. -/
theorem facade_errors_current (calls : List FacadeCall) (f : JSString) (m : JSVal)
    (hf : f ∈ fieldNames)
    (hm : (runCalls System.initial calls).contactForm.errors.get? f = some m) :
    ∃ x msg, (runCalls System.initial calls).contactForm.fields.get? f = some x ∧
      m = .str msg ∧ msg ≠ js "" ∧ validateField f x = .ok (.str msg) := by
  obtain ⟨h1, h2, -⟩ := formInvariant_reachable calls
  obtain ⟨x, hx⟩ := get?_of_mem_keys _ f (by rw [h1]; exact hf)
  obtain ⟨hv, ht⟩ := h2 f hf x m hx hm
  obtain ⟨msg, hmsg⟩ := validateField_known f x hf
  rw [hmsg] at hv
  cases hv
  refine ⟨x, msg, hx, rfl, ?_, hmsg⟩
  intro h0
  rw [h0] at ht
  cases ht

/-- Witness of C19: after the first call of the demonstration,
`updateFormField('name', 'B')`, the error under `name`. -/
theorem facade_errors_current_witness :
    js "name" ∈ fieldNames ∧
    (runCalls System.initial
      [.updateFormField (js "name") (js "B")]).contactForm.errors.get? (js "name") =
        some (.str (js "Name must be at least 2 characters")) ∧
    (∃ x msg, (runCalls System.initial
      [.updateFormField (js "name") (js "B")]).contactForm.fields.get? (js "name") = some x ∧
      JSVal.str (js "Name must be at least 2 characters") = .str msg ∧ msg ≠ js "" ∧
      validateField (js "name") x = .ok (.str msg)) :=
  ⟨by decide, by decide,
    facade_errors_current [.updateFormField (js "name") (js "B")] (js "name")
      (.str (js "Name must be at least 2 characters")) (by decide) (by decide)⟩

/-! ## Records that omit fields -/

/-- C20: `validateForm` checks only the properties present.  For every record whose
present fields are valid, whether or not name, email or message are among them,
`validateForm` returns `isValid` true without errors and `submitForm` returns the
success record and stores the record as it is; so does the empty record, whereas
a present empty `name` is reported. -/
theorem validateForm_present_keys_only (pm : PortfolioManager) (fields : JSObject JSString)
    (hvalid : ∀ e ∈ fields, validateField e.1 e.2 = .ok (.str (js ""))) :
    validateForm fields = .ok ⟨true, []⟩ ∧
    (pm.submitForm fields).1 = .ok (.success (js "✨ Message sent! I'll get back to you within 24 hours.")) ∧
    (pm.submitForm fields).2.formData = fields ∧
    validateForm [] = .ok ⟨true, []⟩ ∧
    (pm.submitForm []).1 = .ok (.success (js "✨ Message sent! I'll get back to you within 24 hours.")) ∧
    (pm.submitForm []).2.formData = [] ∧
    validateForm [(js "name", js "")] =
      .ok ⟨false, [(js "name", .str (js "Please enter your name"))]⟩ := by
  have hform : validateForm fields = .ok ⟨true, []⟩ :=
    validateFormLoop_all_valid _ _ (fun e he => ⟨_, hvalid e he, rfl⟩)
  have hempty : validateForm [] = .ok ⟨true, []⟩ := rfl
  refine ⟨hform, ?_, ?_, hempty, ?_, ?_, by decide⟩
  · simp [submitForm, hform, confirmation]
  · simp [submitForm, hform]
  · simp [submitForm, hempty, confirmation]
  · simp [submitForm, hempty]

/-- Witness of C20: a record that holds only an empty phone number. -/
theorem validateForm_present_keys_only_witness :
    (∀ e ∈ [(js "phone", js "")], validateField e.1 e.2 = .ok (.str (js ""))) ∧
    js "name" ∉ JSObject.keys [(js "phone", js "")] ∧
    (validateForm [(js "phone", js "")] = .ok ⟨true, []⟩ ∧
      (PortfolioManager.new.submitForm [(js "phone", js "")]).1 = .ok (.success (js "✨ Message sent! I'll get back to you within 24 hours.")) ∧
      (PortfolioManager.new.submitForm [(js "phone", js "")]).2.formData = [(js "phone", js "")] ∧
      validateForm [] = .ok ⟨true, []⟩ ∧
      (PortfolioManager.new.submitForm []).1 = .ok (.success (js "✨ Message sent! I'll get back to you within 24 hours.")) ∧
      (PortfolioManager.new.submitForm []).2.formData = [] ∧
      validateForm [(js "name", js "")] =
        .ok ⟨false, [(js "name", .str (js "Please enter your name"))]⟩) :=
  ⟨by decide, by decide,
    validateForm_present_keys_only PortfolioManager.new [(js "phone", js "")] (by decide)⟩

end Portfolio
